import Mathlib

/-!
Verification development for the control core of the IPoWDM sliced-network
SDN controller (`ip-sdn-controller`).  The Lean definitions below are shallow
embeddings of the Python sources under `core/`:

* `connection_manager.py` — connection finite-state machine and lifecycle,
* `path_computer.py`      — first-fit spectrum allocation along a path,
* `linkdb_client.py`      — the resource store (Redis) operations,
* `qot_monitor.py`        — degradation classification and reconfiguration,
* `agent_dispatcher.py`   — agent registry and command dispatch.

Floats of the source are modelled as rationals, datetimes as natural-number
seconds, Python dicts as association lists, and Redis sets as finite sets.
-/

namespace IPoWDM

/-! ## Connection state machine (`connection_manager.py`, lines 25-99) -/
/-- Connection lifecycle states, from `models/schemas.py` `ConnectionStatus`. -/
inductive ConnectionStatus where
  | PENDING
  | SETUP_IN_PROGRESS
  | ACTIVE
  | DEGRADED
  | RECONFIGURING
  | TEARDOWN_IN_PROGRESS
  | FAILED
  | TERMINATED
  deriving DecidableEq, Fintype, Repr

/-- Events that trigger state transitions (`ConnectionEvent` in the source). -/
inductive ConnectionEvent where
  | SETUP_REQUESTED
  | SETUP_COMPLETED
  | SETUP_FAILED
  | DEGRADATION_DETECTED
  | RECONFIG_REQUESTED
  | RECONFIG_COMPLETED
  | RECONFIG_FAILED
  | TEARDOWN_REQUESTED
  | TEARDOWN_COMPLETED
  | TEARDOWN_FAILED
  deriving DecidableEq, Fintype, Repr

open ConnectionStatus ConnectionEvent

/-- The transition table `ConnectionManager.STATE_TRANSITIONS`
(`connection_manager.py`, lines 65-99): `none` means the event is not listed
for the state.  `TERMINATED` has an empty entry in the source. -/
def stateTransitions : ConnectionStatus → ConnectionEvent → Option ConnectionStatus
  | PENDING, SETUP_REQUESTED => some SETUP_IN_PROGRESS
  | PENDING, SETUP_FAILED => some FAILED
  | SETUP_IN_PROGRESS, SETUP_COMPLETED => some ACTIVE
  | SETUP_IN_PROGRESS, SETUP_FAILED => some FAILED
  | SETUP_IN_PROGRESS, TEARDOWN_REQUESTED => some TEARDOWN_IN_PROGRESS
  | ACTIVE, DEGRADATION_DETECTED => some DEGRADED
  | ACTIVE, RECONFIG_REQUESTED => some RECONFIGURING
  | ACTIVE, TEARDOWN_REQUESTED => some TEARDOWN_IN_PROGRESS
  | DEGRADED, RECONFIG_REQUESTED => some RECONFIGURING
  | DEGRADED, TEARDOWN_REQUESTED => some TEARDOWN_IN_PROGRESS
  | RECONFIGURING, RECONFIG_COMPLETED => some ACTIVE
  | RECONFIGURING, RECONFIG_FAILED => some DEGRADED
  | RECONFIGURING, TEARDOWN_REQUESTED => some TEARDOWN_IN_PROGRESS
  | TEARDOWN_IN_PROGRESS, TEARDOWN_COMPLETED => some TERMINATED
  | TEARDOWN_IN_PROGRESS, TEARDOWN_FAILED => some FAILED
  | FAILED, TEARDOWN_REQUESTED => some TEARDOWN_IN_PROGRESS
  | _, _ => none

/-- The transition table as written in the specification, section 4.3
("event → next state" rows).  Kept separate from `stateTransitions` so that
the code table can be compared against the spec's words. -/
def specTransitionRows : List (ConnectionStatus × ConnectionEvent × ConnectionStatus) :=
  [ (PENDING, SETUP_REQUESTED, SETUP_IN_PROGRESS),
    (PENDING, SETUP_FAILED, FAILED),
    (SETUP_IN_PROGRESS, SETUP_COMPLETED, ACTIVE),
    (SETUP_IN_PROGRESS, SETUP_FAILED, FAILED),
    (SETUP_IN_PROGRESS, TEARDOWN_REQUESTED, TEARDOWN_IN_PROGRESS),
    (ACTIVE, DEGRADATION_DETECTED, DEGRADED),
    (ACTIVE, RECONFIG_REQUESTED, RECONFIGURING),
    (ACTIVE, TEARDOWN_REQUESTED, TEARDOWN_IN_PROGRESS),
    (DEGRADED, RECONFIG_REQUESTED, RECONFIGURING),
    (DEGRADED, TEARDOWN_REQUESTED, TEARDOWN_IN_PROGRESS),
    (RECONFIGURING, RECONFIG_COMPLETED, ACTIVE),
    (RECONFIGURING, RECONFIG_FAILED, DEGRADED),
    (RECONFIGURING, TEARDOWN_REQUESTED, TEARDOWN_IN_PROGRESS),
    (TEARDOWN_IN_PROGRESS, TEARDOWN_COMPLETED, TERMINATED),
    (TEARDOWN_IN_PROGRESS, TEARDOWN_FAILED, FAILED),
    (FAILED, TEARDOWN_REQUESTED, TEARDOWN_IN_PROGRESS) ]

/-- `ConnectionManager._transition_state` (lines 150-173) restricted to the
status component: on a listed event the status becomes the table's target and
the method returns `True`; on an unlisted event it logs, returns `False` and
leaves the status unchanged. -/
def transitionState (s : ConnectionStatus) (e : ConnectionEvent) :
    Bool × ConnectionStatus :=
  match stateTransitions s e with
  | none => (false, s)
  | some s2 => (true, s2)

/-- `ConnectionManager.mark_degraded` (lines 421-459) restricted to the status
component: if the connection is already `DEGRADED` the method returns `True`
without attempting any transition (lines 443-445); otherwise it attempts the
`DEGRADATION_DETECTED` transition. -/
def markDegradedStatus (s : ConnectionStatus) : Bool × ConnectionStatus :=
  if s = DEGRADED then (true, s) else transitionState s DEGRADATION_DETECTED

/-- Folding a sequence of events through `transitionState` (each event-driven
operation of the manager performs exactly one such step on the status). -/
def runEvents (s : ConnectionStatus) : List ConnectionEvent → ConnectionStatus
  | [] => s
  | e :: es => runEvents (transitionState s e).2 es

/-! ## Spectrum allocation (`path_computer.py`, `linkdb_client.py`)

The store keeps, per link, the set of currently free slot indices
(`slots:<link>` in Redis).  `LinkDBClient.get_available_slots` (lines 275-289)
returns them sorted.  The path computer reads only through that call, so for
path computation the store is modelled as a map from link id to its free set.
(The source defaults a missing `slots:<link>` key to `range(320)`; that is the
instance `db l = Finset.range 320` of this model.) -/
/-- Free spectrum slots per link id. -/
abbrev SlotDB := String → Finset ℕ

/-- Sorting a multiset of naturals by insertion sort (structurally recursive,
so that concrete instances reduce inside the kernel; `Finset.sort` itself is
proved below to coincide). -/
def multisetSortLE (m : Multiset ℕ) : List ℕ :=
  Quotient.liftOn m (List.insertionSort (· ≤ ·)) fun a b h =>
    List.eq_of_perm_of_sorted
      ((List.perm_insertionSort _ a).trans (h.trans (List.perm_insertionSort _ b).symm))
      (List.sorted_insertionSort _ a) (List.sorted_insertionSort _ b)

/-- `LinkDBClient.get_available_slots`: the sorted list of free slots. -/
def getAvailableSlots (db : SlotDB) (linkId : String) : List ℕ :=
  multisetSortLE (db linkId).val

/-- The contiguous run of `k` slot indices starting at `s`:
`[s, s+1, …, s+k-1]`. -/
def runList (s : ℕ) : ℕ → List ℕ
  | 0 => []
  | k + 1 => s :: runList (s + 1) k

/-- The contiguity test of `path_computer.py` (lines 190-193 and 144-147):
every element is followed by its successor. -/
def contiguousRun : List ℕ → Bool
  | [] => true
  | [_] => true
  | a :: b :: t => decide (a + 1 = b) && contiguousRun (b :: t)

/-- The Python slice `available[i:i+k]`. -/
def windowAt (l : List ℕ) (k i : ℕ) : List ℕ := (l.drop i).take k

/-- Lines 198-204 of `path_computer.py`: the candidate slots are free on every
remaining link of the path. -/
def slotsFreeOnLinks (db : SlotDB) (links : List String) (w : List ℕ) : Bool :=
  links.all (fun lk => w.all (fun s => decide (s ∈ db lk)))

/-- The first index of `is` accepted by `ok`, returning its window — the
`for i in range(...)` loops of `allocate_path_slots` and
`find_contiguous_slots`, which break at the first passing candidate. -/
def scanIdx (ok : ℕ → Bool) (w : ℕ → List ℕ) : List ℕ → Option (List ℕ)
  | [] => none
  | i :: is => if ok i then some (w i) else scanIdx ok w is

/-- The candidate-window test of `allocate_path_slots` (lines 186-205):
contiguity on the first link's slice, then availability on all other links. -/
def windowOk (db : SlotDB) (rest : List String) (avail : List ℕ) (k i : ℕ) : Bool :=
  contiguousRun (windowAt avail k i) && slotsFreeOnLinks db rest (windowAt avail k i)

/-- The first-fit scan of `allocate_path_slots` over
`range(len(available_on_first) - required_slots + 1)`; the Python length
arithmetic is on ints, so an over-long request yields an empty range, which
`avail.length + 1 - k` reproduces in ℕ. -/
def scanWindows (db : SlotDB) (rest : List String) (avail : List ℕ) (k : ℕ) :
    Option (List ℕ) :=
  scanIdx (windowOk db rest avail k) (windowAt avail k)
    (List.range (avail.length + 1 - k))

/-- `PathComputer.find_contiguous_slots` (lines 121-158): first contiguous
window of length `k` in the link's own sorted free slots. -/
def findContiguousSlots (db : SlotDB) (linkId : String) (k : ℕ) : Option (List ℕ) :=
  let avail := getAvailableSlots db linkId
  if avail.isEmpty then none
  else
    scanIdx (fun i => contiguousRun (windowAt avail k i)) (windowAt avail k)
      (List.range (avail.length + 1 - k))

/-- The loop body of `PathComputer._allocate_per_link_slots` (lines 232-244):
each link gets its own first-fit run; any failure aborts the whole plan. -/
def allocPerLinkGo (db : SlotDB) (k : ℕ) : List String → Option (List (String × List ℕ))
  | [] => some []
  | lk :: ls =>
    match findContiguousSlots db lk k with
    | none => none
    | some w => (allocPerLinkGo db k ls).map (fun r => (lk, w) :: r)

/-- `PathComputer._allocate_per_link_slots` (lines 220-247): returns the empty
plan when any link lacks a contiguous run (the Python early `return {}`). -/
def allocatePerLinkSlots (db : SlotDB) (pathLinks : List String) (k : ℕ) :
    List (String × List ℕ) :=
  (allocPerLinkGo db k pathLinks).getD []

/-- `PathComputer.allocate_path_slots` (lines 160-218): first-fit scan for a
run free on every link; when the scan fails the source does NOT reject — it
falls back to `_allocate_per_link_slots` (line 218). -/
def allocatePathSlots (db : SlotDB) (pathLinks : List String) (k : ℕ) :
    List (String × List ℕ) :=
  match pathLinks with
  | [] => []
  | first :: rest =>
    let avail := getAvailableSlots db first
    if avail.isEmpty then []
    else
      match scanWindows db rest avail k with
      | some w => (first :: rest).map (fun lk => (lk, w))
      | none => allocatePerLinkSlots db (first :: rest) k

/-- A run of `k` slots starting at `s` is free on every listed link. -/
def runOk (db : SlotDB) (links : List String) (s k : ℕ) : Prop :=
  ∀ lk ∈ links, ∀ j < k, s + j ∈ db lk

instance (db : SlotDB) (links : List String) (s k : ℕ) :
    Decidable (runOk db links s k) := by
  unfold runOk; infer_instance

/-- The two-link store used in the C4 counterexample: link `L1` has free
slots `{0, 1}`, link `L2` has free slots `{2, 3}` — no slot is free on both. -/
def exdb4 : SlotDB := fun lk => if lk = "L1" then {0, 1} else {2, 3}

/-! ## Resource store (`linkdb_client.py`)

Python dicts and Redis hashes are modelled as association lists; Redis sets
as finite sets.  `insertA` realizes dict assignment (`d[k] = v`), `eraseA`
realizes deletion; lookups mirror `hget`/membership. -/
def lookupA {β : Type} : List (String × β) → String → Option β
  | [], _ => none
  | p :: m, k => if p.1 = k then some p.2 else lookupA m k

def eraseA {β : Type} : List (String × β) → String → List (String × β)
  | [], _ => []
  | p :: m, k => if p.1 = k then eraseA m k else p :: eraseA m k

def insertA {β : Type} (m : List (String × β)) (k : String) (v : β) :
    List (String × β) :=
  (k, v) :: eraseA m k

/-- State of one link in the store: the free-slot set `slots:<link>` and the
`occupied_slots` hash field (connection id → slot list). -/
structure LinkState where
  free : Finset ℕ
  occupied : List (String × List ℕ)
  deriving DecidableEq

/-- State of one interface hash `interface:<pop>:<router>:<name>`; only the
fields the operations read are modelled (`status`, `current_connection`,
with the `'null'`/absent sentinel mapped to `none`). -/
structure InterfaceState where
  status : String
  currentConnection : Option String
  deriving DecidableEq

/-- The store: links, interfaces (keyed `<pop>:<router>:<name>`), and
connection records (only the `status` field of the record hash is modelled,
presence of the key standing for presence of the record). -/
structure DBState where
  links : List (String × LinkState)
  interfaces : List (String × InterfaceState)
  records : List (String × String)
  deriving DecidableEq

/-- Key of an interface hash. -/
def ifaceKey (pop router iface : String) : String :=
  pop ++ ":" ++ router ++ ":" ++ iface

/-- `LinkDBClient.allocate_spectrum_slots` (lines 210-243): missing link →
false; any requested slot not free → false with no change; otherwise record
`occupied[conn_id] = slots`, remove the slots from the free set, return true. -/
def allocateSpectrumSlots (st : DBState) (linkId connId : String)
    (slots : List ℕ) : DBState × Bool :=
  match lookupA st.links linkId with
  | none => (st, false)
  | some ls =>
    if slots.all fun s => decide (s ∈ ls.free) then
      let ls2 := LinkState.mk (ls.free \ slots.toFinset) (insertA ls.occupied connId slots)
      ({st with links := insertA st.links linkId ls2}, true)
    else (st, false)

/-- `LinkDBClient.release_spectrum_slots` (lines 245-273): missing link →
false; connection holding nothing → true with no change; otherwise return the
held slots to the free set and drop the occupied entry. -/
def releaseSpectrumSlots (st : DBState) (linkId connId : String) : DBState × Bool :=
  match lookupA st.links linkId with
  | none => (st, false)
  | some ls =>
    match lookupA ls.occupied connId with
    | none => (st, true)
    | some slots =>
      let ls2 := LinkState.mk (ls.free ∪ slots.toFinset) (eraseA ls.occupied connId)
      ({st with links := insertA st.links linkId ls2}, true)

/-- `LinkDBClient.allocate_interface` (lines 156-185). -/
def allocateInterface (st : DBState) (pop router iface connId : String) :
    DBState × Bool :=
  match lookupA st.interfaces (ifaceKey pop router iface) with
  | none => (st, false)
  | some ist =>
    if ist.status = "AVAILABLE" ∧ ist.currentConnection = none then
      let is2 := InterfaceState.mk "OCCUPIED" (some connId)
      ({st with interfaces := insertA st.interfaces (ifaceKey pop router iface) is2}, true)
    else (st, false)

/-- `LinkDBClient.release_interface` (lines 187-208). -/
def releaseInterface (st : DBState) (pop router iface : String) : DBState × Bool :=
  match lookupA st.interfaces (ifaceKey pop router iface) with
  | none => (st, false)
  | some _ =>
    let is2 := InterfaceState.mk "AVAILABLE" none
    ({st with interfaces := insertA st.interfaces (ifaceKey pop router iface) is2}, true)

/-- `LinkDBClient.create_connection_record` (lines 291-308): unconditional
hash write, returns true. -/
def createConnectionRecord (st : DBState) (connId status : String) :
    DBState × Bool :=
  ({st with records := insertA st.records connId status}, true)

/-- `LinkDBClient.update_connection_status` (lines 310-342): false when the
record does not exist. -/
def updateConnectionStatus (st : DBState) (connId status : String) :
    DBState × Bool :=
  match lookupA st.records connId with
  | none => (st, false)
  | some _ => ({st with records := insertA st.records connId status}, true)

/-- `LinkDBClient.delete_connection_record` (lines 344-361): returns true
also when the record is already gone. -/
def deleteConnectionRecord (st : DBState) (connId : String) : DBState × Bool :=
  match lookupA st.records connId with
  | none => (st, true)
  | some _ => ({st with records := eraseA st.records connId}, true)

/-! ## Connection manager lifecycle (`connection_manager.py`) -/
/-- The string value of a status, as stored in the record hash. -/
def statusStr : ConnectionStatus → String
  | PENDING => "PENDING"
  | SETUP_IN_PROGRESS => "SETUP_IN_PROGRESS"
  | ACTIVE => "ACTIVE"
  | DEGRADED => "DEGRADED"
  | RECONFIGURING => "RECONFIGURING"
  | TEARDOWN_IN_PROGRESS => "TEARDOWN_IN_PROGRESS"
  | FAILED => "FAILED"
  | TERMINATED => "TERMINATED"

/-- A `PathSegment` restricted to the fields the manager writes to the store. -/
structure Segment where
  linkId : String
  allocatedSlots : List ℕ
  deriving DecidableEq

/-- An in-memory `Connection` restricted to the fields the create/teardown
flows read (status, endpoints, optional endpoint interfaces, path). -/
structure Conn where
  status : ConnectionStatus
  sourcePop : String
  destinationPop : String
  sourceIface : Option String
  destinationIface : Option String
  path : List Segment
  deriving DecidableEq

/-- Manager state: the loaded topology (pop → router ids), the store, and the
in-memory connection index `self.connections`. -/
structure CMState where
  topology : List (String × List String)
  db : DBState
  connections : List (String × Conn)
  deriving DecidableEq

/-- Router ids of a pop (`self.path_computer.topology[pop].router_ids`; a pop
missing from the topology raises `KeyError` in the source — the embedding
totalizes the lookup with an empty router list, and no theorem below depends
on that branch). -/
def routersOf (topology : List (String × List String)) (pop : String) : List String :=
  (lookupA topology pop).getD []

/-- The interface-allocation loop of `create_connection` (lines 261-281):
try each router of the pop, stop at the first success; the overall result is
ignored by the caller. -/
def allocIfaceLoop (db : DBState) (pop : String) :
    List String → String → String → DBState
  | [], _, _ => db
  | r :: rs, iface, connId =>
    match allocateInterface db pop r iface connId with
    | (db2, true) => db2
    | (db2, false) => allocIfaceLoop db2 pop rs iface connId

/-- The interface-release loop of `complete_teardown` (lines 552-567):
try each router of the pop, stop at the first successful release. -/
def releaseIfaceLoop (db : DBState) (pop : String) :
    List String → String → DBState
  | [], _ => db
  | r :: rs, iface =>
    match releaseInterface db pop r iface with
    | (db2, true) => db2
    | (db2, false) => releaseIfaceLoop db2 pop rs iface

/-- The fields of a `ConnectionRequest` that `create_connection` reads after
path computation. -/
structure CreateRequest where
  sourcePop : String
  destinationPop : String
  sourceIface : Option String
  destinationIface : Option String
  deriving DecidableEq

/-- `ConnectionManager.create_connection` (lines 213-311), the transaction
after `validate_path` and `compute_complete_path` have succeeded with the
given `segs`:

1. store the connection in the in-memory index (line 236);
2. create the record in the store (line 255; on failure the index entry is
   deleted and the call fails — the only failure the source handles);
3. allocate the endpoint interfaces, trying each router and IGNORING overall
   failure (lines 261-281);
4. allocate the spectrum slots of every non-empty segment, IGNORING the
   result of every call (lines 284-288);
5. transition PENDING → SETUP_IN_PROGRESS, write the new status, and return
   success.

The record payload is built with `json.dumps`, but `json` is never imported
in `connection_manager.py`; the serialization is modelled as total here (the
record value keeps only the status field). -/
def createConnection (cm : CMState) (connId : String) (req : CreateRequest)
    (segs : List Segment) : CMState × Bool :=
  let conn : Conn :=
    Conn.mk PENDING req.sourcePop req.destinationPop req.sourceIface
      req.destinationIface segs
  let conns1 := insertA cm.connections connId conn
  match createConnectionRecord cm.db connId (statusStr PENDING) with
  | (_, false) => ({cm with connections := eraseA conns1 connId}, false)
  | (db1, true) =>
    let db2 := match req.sourceIface with
      | none => db1
      | some iface =>
        allocIfaceLoop db1 req.sourcePop (routersOf cm.topology req.sourcePop)
          iface connId
    let db3 := match req.destinationIface with
      | none => db2
      | some iface =>
        allocIfaceLoop db2 req.destinationPop
          (routersOf cm.topology req.destinationPop) iface connId
    let db4 := segs.foldl
      (fun d seg =>
        if seg.allocatedSlots.isEmpty then d
        else (allocateSpectrumSlots d seg.linkId connId seg.allocatedSlots).1)
      db3
    let conn2 : Conn := {conn with status := (transitionState PENDING SETUP_REQUESTED).2}
    let db5 := (updateConnectionStatus db4 connId (statusStr conn2.status)).1
    (CMState.mk cm.topology db5 (insertA conns1 connId conn2), true)

/-- `ConnectionManager.start_teardown` (lines 514-532): unknown connection →
false; otherwise attempt `TEARDOWN_REQUESTED` and persist the new status. -/
def startTeardown (cm : CMState) (connId : String) : CMState × Bool :=
  match lookupA cm.connections connId with
  | none => (cm, false)
  | some conn =>
    match transitionState conn.status TEARDOWN_REQUESTED with
    | (false, _) => (cm, false)
    | (true, s2) =>
      match updateConnectionStatus cm.db connId (statusStr s2) with
      | (db2, ok) =>
        let conns2 := insertA cm.connections connId {conn with status := s2}
        (CMState.mk cm.topology db2 conns2, ok)

/-- `ConnectionManager.complete_teardown` (lines 534-581): unknown connection
→ false with no change; otherwise release the slots of every path segment and
the endpoint interfaces (best-effort), then attempt `TEARDOWN_COMPLETED`; on
success drop the in-memory entry and delete the record. -/
def completeTeardown (cm : CMState) (connId : String) : CMState × Bool :=
  match lookupA cm.connections connId with
  | none => (cm, false)
  | some conn =>
    let db1 := conn.path.foldl
      (fun d seg => (releaseSpectrumSlots d seg.linkId connId).1) cm.db
    let db2 := match conn.sourceIface with
      | none => db1
      | some iface =>
        releaseIfaceLoop db1 conn.sourcePop
          (routersOf cm.topology conn.sourcePop) iface
    let db3 := match conn.destinationIface with
      | none => db2
      | some iface =>
        releaseIfaceLoop db2 conn.destinationPop
          (routersOf cm.topology conn.destinationPop) iface
    match transitionState conn.status TEARDOWN_COMPLETED with
    | (false, _) => (CMState.mk cm.topology db3 cm.connections, false)
    | (true, _) =>
      let db4 := (deleteConnectionRecord db3 connId).1
      (CMState.mk cm.topology db4 (eraseA cm.connections connId), true)

/-- Store used by the C7 witness: one link with free slots `{0, 1, 2}`. -/
def st7 : DBState := DBState.mk [("L1", LinkState.mk {0, 1, 2} [])] [] []

/-- Manager state used by the C8 counterexample: connection `c1` is in
`TEARDOWN_IN_PROGRESS`, holds slots `[0, 1]` on link `L1`, and has a record
in the store. -/
def ex8cm : CMState :=
  CMState.mk [("A", ["r1"])]
    (DBState.mk [("L1", LinkState.mk {2, 3} [("c1", [0, 1])])] []
      [("c1", "TEARDOWN_IN_PROGRESS")])
    [("c1", Conn.mk TEARDOWN_IN_PROGRESS "A" "B" none none [Segment.mk "L1" [0, 1]])]

/-- Manager state used for C1: two pops, link `L1` with free slots
`{0, 1, 2, 3}` and link `L2` with free slots `{5}` only — so the planned
slots `[0, 1]` cannot be allocated on `L2`. -/
def ex1cm : CMState :=
  CMState.mk [("A", ["r1"]), ("B", ["r1"])]
    (DBState.mk [("L1", LinkState.mk {0, 1, 2, 3} []), ("L2", LinkState.mk {5} [])]
      [] [])
    []

/-- The C1 request (no endpoint interfaces). -/
def ex1req : CreateRequest := CreateRequest.mk "A" "B" none none

/-- The planned path for C1: slots `[0, 1]` on both links. -/
def ex1segs : List Segment := [Segment.mk "L1" [0, 1], Segment.mk "L2" [0, 1]]

/-! ## QoT monitor (`qot_monitor.py`)

Floats are modelled as rationals, `datetime.utcnow()` as a natural-number
`now` passed in, the connection-manager responses (`get_connection`,
`start_reconfiguration`) as explicit inputs, and the calls the monitor makes
into the connection manager as an explicit output list. -/
/-- `DegradationLevel` (lines 25-30). -/
inductive DegradationLevel where
  | NORMAL
  | WARNING
  | DEGRADED
  | CRITICAL
  deriving DecidableEq, Fintype, Repr

/-- A `QoTSample` restricted to the metrics the classifier reads
(`osnr`, `pre_fec_ber`; a sample with both absent is `is_valid = False` and
contributes nothing). -/
structure QoTSample where
  osnr : Option ℚ
  preFecBer : Option ℚ
  deriving DecidableEq

/-- The monitor thresholds (lines 116-124): `OSNR_THRESHOLD` (default 18 dB),
the hard-coded critical OSNR 15 dB, `BER_THRESHOLD` (default 10⁻³),
`PERSISTENCY_SAMPLES` (default 3) and `COOLDOWN_SEC` (default 20 s). -/
structure QoTConfig where
  osnrThreshold : ℚ
  criticalOsnr : ℚ
  berThreshold : ℚ
  persistency : ℕ
  cooldownSec : ℕ
  deriving DecidableEq

/-- The defaults of `config/settings.py`. -/
def defaultQoTConfig : QoTConfig := QoTConfig.mk 18 15 (1 / 1000) 3 20

/-- The contribution of one sample to `critical_samples`
(lines 184-200): the OSNR check and the BER check increment independently,
so a single sample can add 2. -/
def sampleCritCount (cfg : QoTConfig) (s : QoTSample) : ℕ :=
  (match s.osnr with
   | some o => if o < cfg.criticalOsnr then 1 else 0
   | none => 0) +
  (match s.preFecBer with
   | some b => if b > cfg.berThreshold * 10 then 1 else 0
   | none => 0)

/-- The contribution of one sample to `degraded_samples` (the `elif`
branches of lines 190-200). -/
def sampleDegrCount (cfg : QoTConfig) (s : QoTSample) : ℕ :=
  (match s.osnr with
   | some o =>
     if o < cfg.criticalOsnr then 0 else if o < cfg.osnrThreshold then 1 else 0
   | none => 0) +
  (match s.preFecBer with
   | some b =>
     if b > cfg.berThreshold * 10 then 0 else if b > cfg.berThreshold then 1 else 0
   | none => 0)

/-- The level computation of `_check_degradation` (lines 181-208): count the
per-metric critical/degraded flags over the recent samples and compare the
totals with the persistency. -/
def classifyLevel (cfg : QoTConfig) (recent : List QoTSample) : DegradationLevel :=
  let crit := (recent.map (sampleCritCount cfg)).sum
  let degr := (recent.map (sampleDegrCount cfg)).sum
  if cfg.persistency ≤ crit then DegradationLevel.CRITICAL
  else if cfg.persistency ≤ degr then DegradationLevel.DEGRADED
  else DegradationLevel.NORMAL

/-- The Python slice `list(samples)[-n:]` of `get_recent_samples`. -/
def takeLast {α : Type} (n : ℕ) (l : List α) : List α := l.drop (l.length - n)

/-- A sample that is individually critical, written from the spec's words:
OSNR below the critical threshold or pre-FEC BER above ten times the BER
threshold. -/
def specSampleCriticalB (cfg : QoTConfig) (s : QoTSample) : Bool :=
  (match s.osnr with
   | some o => decide (o < cfg.criticalOsnr)
   | none => false) ||
  (match s.preFecBer with
   | some b => decide (b > cfg.berThreshold * 10)
   | none => false)

/-- A sample that is individually at least degraded, written from the spec's
words. -/
def specSampleDegradedB (cfg : QoTConfig) (s : QoTSample) : Bool :=
  (match s.osnr with
   | some o => decide (o < cfg.osnrThreshold)
   | none => false) ||
  (match s.preFecBer with
   | some b => decide (b > cfg.berThreshold)
   | none => false)

/-- A sample that is degraded but not critical on its present metric — what
the code's `elif` branches actually count into `degraded_samples`. -/
def sampleDegradedOnlyB (cfg : QoTConfig) (s : QoTSample) : Bool :=
  (match s.osnr with
   | some o => decide (cfg.criticalOsnr ≤ o) && decide (o < cfg.osnrThreshold)
   | none => false) ||
  (match s.preFecBer with
   | some b => decide (b ≤ cfg.berThreshold * 10) && decide (b > cfg.berThreshold)
   | none => false)

/-- Per-connection monitor state (`ConnectionQoTState`, lines 49-81). -/
structure MonState where
  samples : List QoTSample
  level : DegradationLevel
  reconfigCount : ℕ
  lastReconfigTime : Option ℕ
  cooldownUntil : Option ℕ
  lastDegradationTime : Option ℕ
  deriving DecidableEq

/-- The initial per-connection state (a fresh `ConnectionQoTState`). -/
def initMonState : MonState :=
  MonState.mk [] DegradationLevel.NORMAL 0 none none none

/-- `ConnectionQoTState.is_in_cooldown` (lines 76-81). -/
def isInCooldown (now : ℕ) (st : MonState) : Bool :=
  match st.cooldownUntil with
  | none => false
  | some c => decide (now < c)

/-- The bounded FIFO `deque(maxlen=100)` append. -/
def fifoAppend (l : List QoTSample) (s : QoTSample) : List QoTSample :=
  takeLast 100 (l ++ [s])

/-- Calls the monitor makes into the connection manager. -/
inductive CMCall where
  | markDegraded
  | startReconfig
  | completeReconfig
  deriving DecidableEq, Repr

/-- Result of `_trigger_reconfiguration`: the new monitor state, the
connection-manager calls made, and whether a reconfiguration was performed
(commands applied, counters updated, `complete_reconfiguration` called). -/
structure TrigResult where
  state : MonState
  calls : List CMCall
  performed : Bool
  deriving DecidableEq

/-- `QoTMonitor._trigger_reconfiguration` (lines 244-299).  Aborts before
doing anything when `reconfig_count ≥ 3` or the cooldown is active; then
aborts when the connection is unknown; otherwise calls
`start_reconfiguration` (its outcome is the `startOk` input).  On success,
with at least one recent sample, `_apply_reconfiguration` is called — the
source always returns `True` from it (lines 357-371) — and the monitor
increments `reconfig_count`, records `last_reconfig_time`, sets
`cooldown_until = now + COOLDOWN_SEC`, and calls `complete_reconfiguration`. -/
def triggerReconfiguration (cfg : QoTConfig) (now : ℕ) (connExists startOk : Bool)
    (st : MonState) : TrigResult :=
  if 3 ≤ st.reconfigCount then TrigResult.mk st [] false
  else if isInCooldown now st then TrigResult.mk st [] false
  else if ¬ connExists then TrigResult.mk st [] false
  else if startOk then
    if (takeLast 5 st.samples).isEmpty then
      TrigResult.mk st [CMCall.startReconfig] false
    else
      TrigResult.mk
        (MonState.mk st.samples st.level (st.reconfigCount + 1) (some now)
          (some (now + cfg.cooldownSec)) st.lastDegradationTime)
        [CMCall.startReconfig, CMCall.completeReconfig] true
  else TrigResult.mk st [CMCall.startReconfig] false

/-- Result of `_check_degradation`. -/
structure CheckResult where
  state : MonState
  calls : List CMCall
  deriving DecidableEq

/-- `QoTMonitor._check_degradation` (lines 163-242).  Skips during cooldown
and below the persistency sample count; computes the new level from the last
`persistency` samples; on a change to `DEGRADED`/`CRITICAL`, records the
degradation time and — only when the connection exists in the manager with
status `ACTIVE` — calls `mark_degraded` and `_trigger_reconfiguration`. -/
def checkDegradation (cfg : QoTConfig) (now : ℕ)
    (connStatus : Option ConnectionStatus) (startOk : Bool) (st : MonState) :
    CheckResult :=
  if isInCooldown now st then CheckResult.mk st []
  else
    let recent := takeLast cfg.persistency st.samples
    if recent.length < cfg.persistency then CheckResult.mk st []
    else
      let newLevel := classifyLevel cfg recent
      if newLevel = st.level then CheckResult.mk st []
      else
        if newLevel = DegradationLevel.DEGRADED ∨
            newLevel = DegradationLevel.CRITICAL then
          let st1 := MonState.mk st.samples newLevel st.reconfigCount
            st.lastReconfigTime st.cooldownUntil (some now)
          if connStatus = some ACTIVE then
            let tr := triggerReconfiguration cfg now true startOk st1
            CheckResult.mk tr.state (CMCall.markDegraded :: tr.calls)
          else CheckResult.mk st1 []
        else
          CheckResult.mk (MonState.mk st.samples newLevel st.reconfigCount
            st.lastReconfigTime st.cooldownUntil st.lastDegradationTime) []

/-- `QoTMonitor._handle_telemetry` (lines 143-161): append the sample to the
FIFO, then check degradation. -/
def handleTelemetry (cfg : QoTConfig) (now : ℕ)
    (connStatus : Option ConnectionStatus) (startOk : Bool) (st : MonState)
    (sample : QoTSample) : CheckResult :=
  checkDegradation cfg now connStatus startOk
    (MonState.mk (fifoAppend st.samples sample) st.level st.reconfigCount
      st.lastReconfigTime st.cooldownUntil st.lastDegradationTime)

/-- Effect of the monitor's connection-manager calls on a connection's FSM
status (each call drives the corresponding manager operation of
`connection_manager.py`). -/
def applyCMCalls : List CMCall → Option ConnectionStatus → Option ConnectionStatus
  | [], s => s
  | c :: cs, s =>
    applyCMCalls cs
      (match s with
       | none => none
       | some st =>
         match c with
         | CMCall.markDegraded => some (markDegradedStatus st).2
         | CMCall.startReconfig => some (transitionState st RECONFIG_REQUESTED).2
         | CMCall.completeReconfig => some (transitionState st RECONFIG_COMPLETED).2)

/-- One invocation of `_trigger_reconfiguration` in a trace: the wall-clock
time and the connection-manager responses. -/
structure TrigEvent where
  now : ℕ
  connExists : Bool
  startOk : Bool
  deriving DecidableEq

/-- A sequence of `_trigger_reconfiguration` invocations, returning the final
state and the times of the performed reconfigurations. -/
def runTrigger (cfg : QoTConfig) (st : MonState) :
    List TrigEvent → MonState × List ℕ
  | [] => (st, [])
  | ev :: evs =>
    let tr := triggerReconfiguration cfg ev.now ev.connExists ev.startOk st
    let r := runTrigger cfg tr.state evs
    (r.1, if tr.performed then ev.now :: r.2 else r.2)

/-- The three samples of the first C5 scenario: one critical (OSNR 14 dB) and
two degraded (OSNR 17 dB) — all three individually at least degraded. -/
def sampA : List QoTSample :=
  [QoTSample.mk (some 14) none, QoTSample.mk (some 17) none,
   QoTSample.mk (some 17) none]

/-- The three samples of the second C5 scenario: two samples degraded on both
metrics (OSNR 17 dB and BER 2·10⁻³), one healthy sample (OSNR 30 dB). -/
def sampB : List QoTSample :=
  [QoTSample.mk (some 17) (some (2 / 1000)), QoTSample.mk (some 17) (some (2 / 1000)),
   QoTSample.mk (some 30) none]

/-- Monitor state used by the C6 witness: `reconfig_count` already 3. -/
def exMon6 : MonState :=
  MonState.mk [] DegradationLevel.DEGRADED 3 (some 10) (some 30) (some 10)

/-- Monitor state used by the C10 witness: three degraded samples already
recorded, level still NORMAL. -/
def exMon10 : MonState :=
  MonState.mk
    [QoTSample.mk (some 17) none, QoTSample.mk (some 17) none]
    DegradationLevel.NORMAL 0 none none none

/-! ## Agent dispatcher (`agent_dispatcher.py`) -/
/-- `AgentInfo` restricted to the fields command dispatch reads (`agent_id`,
`pop_id`, `router_id`, `last_heartbeat`; status and capability lists are not
consulted by `get_agent`/`is_online`). -/
structure AgentInfo where
  agentId : String
  popId : String
  routerId : String
  lastHeartbeat : Option ℕ
  deriving DecidableEq

/-- `AgentInfo.is_online` (lines 45-52): a heartbeat within the last 60
seconds (`utcnow − last_heartbeat < 60 s`; with integer seconds, and future
heartbeats also counting as online, this is `now < t + 60`). -/
def isOnline (now : ℕ) (a : AgentInfo) : Bool :=
  match a.lastHeartbeat with
  | none => false
  | some t => decide (now < t + 60)

/-- `AgentDispatcher.get_agent` (lines 134-149): first registered agent with
the given pop and router, regardless of liveness. -/
def getAgent (agents : List AgentInfo) (popId routerId : String) :
    Option AgentInfo :=
  agents.find? fun a => decide (a.popId = popId) && decide (a.routerId = routerId)

/-- An `EndpointConfig` restricted to the addressing fields dispatch uses. -/
structure EndpointCfg where
  popId : String
  nodeId : String
  deriving DecidableEq

/-- A reconfiguration command put on the bus, keyed by its target agent. -/
structure SentCommand where
  targetAgent : String
  connectionId : String
  deriving DecidableEq

/-- `AgentDispatcher.dispatch_reconfig_command` (lines 241-286): for each
endpoint config, look the agent up; if one is registered AND online, send the
command keyed by its `agent_id` (the bus send outcome is `sendOk`); otherwise
send NOTHING and record failure under the key `"{pop}_{router}"`.  Returns
the result map (as an ordered list) and the commands actually sent. -/
def dispatchReconfigCommand (now : ℕ) (sendOk : String → Bool)
    (agents : List AgentInfo) (connId : String) :
    List EndpointCfg → List (String × Bool) × List SentCommand
  | [] => ([], [])
  | c :: cs =>
    let r := dispatchReconfigCommand now sendOk agents connId cs
    match getAgent agents c.popId c.nodeId with
    | some a =>
      if isOnline now a then
        ((a.agentId, sendOk a.agentId) :: r.1, SentCommand.mk a.agentId connId :: r.2)
      else ((c.popId ++ "_" ++ c.nodeId, false) :: r.1, r.2)
    | none => ((c.popId ++ "_" ++ c.nodeId, false) :: r.1, r.2)

/-- Registry used by the C9 witness: one online agent for pop `A`,
router `r1`. -/
def exAgents : List AgentInfo := [AgentInfo.mk "agent-A-r1" "A" "r1" (some 70)]

/-! ## Theorems -/

lemma transitionState_terminated (e : ConnectionEvent) :
    transitionState TERMINATED e = (false, TERMINATED) := by
  cases e <;> rfl

lemma runEvents_terminated (evs : List ConnectionEvent) :
    runEvents TERMINATED evs = TERMINATED := by
  induction evs with
  | nil => rfl
  | cons e es ih => rw [runEvents, transitionState_terminated]; exact ih

/-- C2 counterexample: `mark_degraded` on a connection that is already
`DEGRADED` returns `True` (lines 443-445 of `connection_manager.py`) even
though `DEGRADATION_DETECTED` is not listed for `DEGRADED` in the transition
table, contradicting the claim that an unlisted event makes the operation
return false. -/
theorem C2_mark_degraded_counterexample :
    markDegradedStatus DEGRADED = (true, DEGRADED) ∧
      stateTransitions DEGRADED DEGRADATION_DETECTED = none := by
  exact ⟨rfl, rfl⟩

/-- C2 (amended): the manager's transition function agrees row for row with
the table of spec section 4.3; an unlisted event is rejected with `false` and
leaves the status unchanged; every accepted transition is a row of the spec
table; `TERMINATED` admits no transition and absorbs every event sequence.
The one exception to "unlisted events return false" is `mark_degraded` on an
already-`DEGRADED` connection, which returns `true` while changing nothing;
on every other status `mark_degraded` attempts the `DEGRADATION_DETECTED`
transition like the rest of the event-driven operations. -/
theorem C2_fsm_follows_spec_table :
    (∀ s e s2, stateTransitions s e = some s2 ↔ (s, e, s2) ∈ specTransitionRows) ∧
    (∀ s e, stateTransitions s e = none → transitionState s e = (false, s)) ∧
    (∀ s e, (transitionState s e).1 = true →
      (s, e, (transitionState s e).2) ∈ specTransitionRows) ∧
    (∀ e, stateTransitions TERMINATED e = none) ∧
    (∀ evs, runEvents TERMINATED evs = TERMINATED) ∧
    (∀ s, s ≠ DEGRADED → markDegradedStatus s = transitionState s DEGRADATION_DETECTED) ∧
    markDegradedStatus DEGRADED = (true, DEGRADED) := by
  refine ⟨by decide, by decide, by decide, by decide, runEvents_terminated, ?_, rfl⟩
  intro s hs
  simp [markDegradedStatus, hs]

/-- C2 witness: the amended theorem applied at concrete inputs, discharging
its hypotheses on `ACTIVE` (for the `mark_degraded` clause) and on a rejected
event. -/
theorem C2_fsm_witness :
    (ACTIVE ≠ DEGRADED ∧
      markDegradedStatus ACTIVE = transitionState ACTIVE DEGRADATION_DETECTED) ∧
    (stateTransitions ACTIVE SETUP_COMPLETED = none ∧
      transitionState ACTIVE SETUP_COMPLETED = (false, ACTIVE)) :=
  ⟨⟨by decide, C2_fsm_follows_spec_table.2.2.2.2.2.1 ACTIVE (by decide)⟩,
   ⟨by decide, C2_fsm_follows_spec_table.2.1 ACTIVE SETUP_COMPLETED (by decide)⟩⟩

lemma multisetSortLE_coe (l : List ℕ) :
    multisetSortLE (l : Multiset ℕ) = List.insertionSort (· ≤ ·) l := rfl

lemma mem_multisetSortLE {m : Multiset ℕ} {x : ℕ} :
    x ∈ multisetSortLE m ↔ x ∈ m := by
  induction m using Quotient.inductionOn with
  | h l => exact (List.perm_insertionSort _ l).mem_iff

lemma multisetSortLE_sorted (m : Multiset ℕ) :
    (multisetSortLE m).Sorted (· ≤ ·) := by
  induction m using Quotient.inductionOn with
  | h l => exact List.sorted_insertionSort _ l

lemma multisetSortLE_nodup {m : Multiset ℕ} (h : m.Nodup) :
    (multisetSortLE m).Nodup := by
  induction m using Quotient.inductionOn with
  | h l => exact (List.perm_insertionSort _ l).nodup_iff.mpr h

lemma multisetSortLE_val_eq (m : Multiset ℕ) :
    ((multisetSortLE m : List ℕ) : Multiset ℕ) = m := by
  induction m using Quotient.inductionOn with
  | h l => exact Multiset.coe_eq_coe.mpr (List.perm_insertionSort _ l)

lemma getAvailableSlots_eq_sort (db : SlotDB) (linkId : String) :
    getAvailableSlots db linkId = (db linkId).sort (· ≤ ·) := by
  refine List.eq_of_perm_of_sorted ?_ (multisetSortLE_sorted _) (Finset.sort_sorted _ _)
  refine Multiset.coe_eq_coe.mp ?_
  rw [Finset.sort_eq]
  exact multisetSortLE_val_eq _

/-- Membership in the sorted free-slot list is membership in the free set. -/
lemma mem_getAvailableSlots {db : SlotDB} {linkId : String} {x : ℕ} :
    x ∈ getAvailableSlots db linkId ↔ x ∈ db linkId :=
  mem_multisetSortLE

/-- The free-slot list is strictly sorted (sorted and duplicate-free). -/
lemma getAvailableSlots_sorted_lt (db : SlotDB) (linkId : String) :
    (getAvailableSlots db linkId).Sorted (· < ·) := by
  rw [getAvailableSlots_eq_sort]; exact Finset.sort_sorted_lt _

/-! ### Toolkit: runs, windows and the first-fit scan -/
lemma runList_length (s k : ℕ) : (runList s k).length = k := by
  induction k generalizing s with
  | zero => rfl
  | succ k ih => simp [runList, ih]

lemma mem_runList {x s k : ℕ} : x ∈ runList s k ↔ s ≤ x ∧ x < s + k := by
  induction k generalizing s with
  | zero => simp [runList]
  | succ k ih =>
    simp [runList, ih]
    omega

lemma contiguousRun_runList : ∀ (k s : ℕ), contiguousRun (runList s k) = true
  | 0, _ => rfl
  | 1, _ => rfl
  | (k + 2), s => by
    have ih := contiguousRun_runList (k + 1) (s + 1)
    simp only [runList] at ih ⊢
    simp [contiguousRun, ih]

lemma contiguous_eq_runList :
    ∀ (w : List ℕ), contiguousRun w = true → w = runList (w.headD 0) w.length
  | [], _ => rfl
  | [a], _ => rfl
  | a :: b :: t, h => by
    simp only [contiguousRun, Bool.and_eq_true, decide_eq_true_iff] at h
    have ih := contiguous_eq_runList (b :: t) h.2
    simp only [List.headD_cons, List.length_cons, runList]
    rw [h.1]
    simpa [runList] using ih

lemma windowAt_length {l : List ℕ} {k i : ℕ} (h : i + k ≤ l.length) :
    (windowAt l k i).length = k := by
  simp [windowAt]
  omega

lemma windowAt_subset {l : List ℕ} {k i x : ℕ} (hx : x ∈ windowAt l k i) : x ∈ l :=
  List.mem_of_mem_drop (List.mem_of_mem_take hx)

lemma windowAt_headD {l : List ℕ} {k i : ℕ} (hi : i < l.length) (hk : 1 ≤ k) :
    (windowAt l k i).headD 0 = l.get ⟨i, hi⟩ := by
  obtain ⟨k2, rfl⟩ : ∃ k2, k = k2 + 1 := ⟨k - 1, by omega⟩
  rw [windowAt, List.drop_eq_getElem_cons hi, List.take_succ_cons, List.headD_cons,
    List.get_eq_getElem]

lemma take_eq_runList :
    ∀ (k : ℕ) (l : List ℕ) (s : ℕ), l.Sorted (· < ·) →
      (∀ j, j < k → s + j ∈ l) → (∀ x ∈ l, s ≤ x) →
      l.take k = runList s k ∧ k ≤ l.length
  | 0, l, s, _, _, _ => ⟨by simp [runList], by omega⟩
  | (k + 1), l, s, hsort, hmem, hlow => by
    have hs : s ∈ l := by simpa using hmem 0 (by omega)
    cases l with
    | nil => simp at hs
    | cons a t =>
      have hat := List.sorted_cons.mp hsort
      have ha : a = s := by
        have h1 : s ≤ a := hlow a (by simp)
        rcases List.mem_cons.mp hs with h2 | h2
        · omega
        · have := hat.1 s h2; omega
      subst ha
      have ih := take_eq_runList k t (a + 1) hat.2
        (fun j hj => by
          have h3 : a + (j + 1) ∈ a :: t := hmem (j + 1) (by omega)
          rcases List.mem_cons.mp h3 with h4 | h4
          · omega
          · have : a + 1 + j = a + (j + 1) := by omega
            rwa [this])
        (fun x hx => by have := hat.1 x hx; omega)
      refine ⟨?_, by simpa using Nat.succ_le_succ ih.2⟩
      simp only [List.take_succ_cons, runList]
      rw [ih.1]

lemma run_is_window :
    ∀ (l : List ℕ), l.Sorted (· < ·) → ∀ (s k : ℕ), 1 ≤ k →
      (∀ j, j < k → s + j ∈ l) →
      ∃ i, i + k ≤ l.length ∧ windowAt l k i = runList s k
  | [], _, s, k, hk, hmem => by
    have := hmem 0 (by omega)
    simp at this
  | a :: t, hsort, s, k, hk, hmem => by
    have hat := List.sorted_cons.mp hsort
    by_cases ha : a = s
    · subst ha
      have h := take_eq_runList k (a :: t) a hsort hmem
        (fun x hx => by
          rcases List.mem_cons.mp hx with h1 | h1
          · omega
          · have := hat.1 x h1; omega)
      exact ⟨0, by simpa using h.2, by simpa [windowAt] using h.1⟩
    · have hs : s ∈ t := by
        have h1 : s ∈ a :: t := by simpa using hmem 0 (by omega)
        rcases List.mem_cons.mp h1 with h2 | h2
        · exact absurd h2.symm ha
        · exact h2
      have hlt : a < s := hat.1 s hs
      obtain ⟨i, hi, hw⟩ := run_is_window t hat.2 s k hk
        (fun j hj => by
          have h3 : s + j ∈ a :: t := hmem j hj
          rcases List.mem_cons.mp h3 with h4 | h4
          · omega
          · exact h4)
      exact ⟨i + 1, by simp only [List.length_cons]; omega,
        by simpa [windowAt, List.drop_succ_cons] using hw⟩

lemma scanIdx_eq_none {ok : ℕ → Bool} {w : ℕ → List ℕ} :
    ∀ {is : List ℕ}, scanIdx ok w is = none ↔ ∀ i ∈ is, ok i = false := by
  intro is
  induction is with
  | nil => simp [scanIdx]
  | cons i is ih =>
    by_cases h : ok i
    · simp [scanIdx, h]
    · simp [scanIdx, h, ih]

lemma scanIdx_eq_some {ok : ℕ → Bool} {w : ℕ → List ℕ} :
    ∀ {is : List ℕ} {v : List ℕ}, is.Sorted (· < ·) → scanIdx ok w is = some v →
      ∃ i ∈ is, ok i = true ∧ v = w i ∧ ∀ j ∈ is, ok j = true → i ≤ j := by
  intro is
  induction is with
  | nil => intro v _ h; simp [scanIdx] at h
  | cons i is ih =>
    intro v hsort h
    have hat := List.sorted_cons.mp hsort
    by_cases hok : ok i
    · have hv : v = w i := by
        rw [scanIdx, if_pos hok] at h
        exact (Option.some.inj h).symm
      refine ⟨i, by simp, hok, hv, ?_⟩
      intro j hj _
      rcases List.mem_cons.mp hj with h1 | h1
      · omega
      · exact le_of_lt (hat.1 j h1)
    · rw [scanIdx, if_neg hok] at h
      obtain ⟨i2, hi2, hoki2, hv, hmin⟩ := ih hat.2 h
      refine ⟨i2, by simp [hi2], hoki2, hv, ?_⟩
      intro j hj hokj
      rcases List.mem_cons.mp hj with h1 | h1
      · subst h1; exact absurd hokj (by simpa using hok)
      · exact hmin j h1 hokj

lemma runList_headD {s k : ℕ} (hk : 1 ≤ k) : (runList s k).headD 0 = s := by
  cases k with
  | zero => omega
  | succ k => rfl

lemma slotsFreeOnLinks_iff {db : SlotDB} {links : List String} {w : List ℕ} :
    slotsFreeOnLinks db links w = true ↔ ∀ lk ∈ links, ∀ x ∈ w, x ∈ db lk := by
  simp [slotsFreeOnLinks]

/-- The first-fit scan of `allocate_path_slots` returns exactly the
lowest-starting contiguous run that is free on every link of the path,
whenever the minimum `s0` of such starting indices is given. -/
lemma scanWindows_first_fit {db : SlotDB} {first : String} {rest : List String}
    {k : ℕ} (hk : 1 ≤ k) {s0 : ℕ} (h0 : runOk db (first :: rest) s0 k)
    (hmin : ∀ t, runOk db (first :: rest) t k → s0 ≤ t) :
    scanWindows db rest (getAvailableSlots db first) k = some (runList s0 k) := by
  set avail := getAvailableSlots db first with havail
  have hsort : avail.Sorted (· < ·) := getAvailableSlots_sorted_lt db first
  have hmemf : ∀ j, j < k → s0 + j ∈ avail := fun j hj =>
    mem_getAvailableSlots.mpr (h0 first (by simp) j hj)
  obtain ⟨i0, hi0len, hwi0⟩ := run_is_window avail hsort s0 k hk hmemf
  have hoki0 : windowOk db rest avail k i0 = true := by
    unfold windowOk
    rw [hwi0, Bool.and_eq_true]
    refine ⟨contiguousRun_runList k s0, ?_⟩
    refine slotsFreeOnLinks_iff.mpr fun lk hlk x hx => ?_
    have hxb := mem_runList.mp hx
    obtain ⟨j, hj, rfl⟩ : ∃ j, j < k ∧ x = s0 + j := ⟨x - s0, by omega, by omega⟩
    exact h0 lk (List.mem_cons_of_mem _ hlk) j hj
  have hi0range : i0 ∈ List.range (avail.length + 1 - k) := List.mem_range.mpr (by omega)
  cases hscan : scanWindows db rest avail k with
  | none =>
    exfalso
    simp only [scanWindows] at hscan
    exact absurd (scanIdx_eq_none.mp hscan i0 hi0range)
      (by simp [hoki0])
  | some v =>
    simp only [scanWindows] at hscan
    obtain ⟨i, hirange, hoki, hveq, himin⟩ :=
      scanIdx_eq_some (List.sorted_lt_range _) hscan
    have hik : i + k ≤ avail.length := by
      have := List.mem_range.mp hirange; omega
    have hlenv : v.length = k := by rw [hveq]; exact windowAt_length hik
    rw [windowOk, Bool.and_eq_true] at hoki
    have hv_run : v = runList (v.headD 0) k := by
      have h := contiguous_eq_runList (windowAt avail k i) hoki.1
      rw [← hveq, hlenv] at h
      exact h
    set v0 := v.headD 0 with hv0
    have hgood : runOk db (first :: rest) v0 k := by
      intro lk hlk j hj
      have hxmem : v0 + j ∈ v := by
        rw [hv_run]; exact mem_runList.mpr ⟨by omega, by omega⟩
      rcases List.mem_cons.mp hlk with rfl | hlk2
      · have : v0 + j ∈ avail := by
          rw [hveq] at hxmem; exact windowAt_subset hxmem
        exact mem_getAvailableSlots.mp this
      · exact slotsFreeOnLinks_iff.mp hoki.2 lk hlk2 _ (by rw [← hveq]; exact hxmem)
    have h1 : s0 ≤ v0 := hmin v0 hgood
    have h2 : i ≤ i0 := himin i0 hi0range hoki0
    have hi_lt : i < avail.length := by omega
    have hi0_lt : i0 < avail.length := by omega
    have hv0get : v0 = avail.get ⟨i, hi_lt⟩ := by
      rw [hv0, hveq]; exact windowAt_headD hi_lt hk
    have hs0get : s0 = avail.get ⟨i0, hi0_lt⟩ := by
      have h := windowAt_headD hi0_lt hk (l := avail)
      rw [hwi0, runList_headD hk] at h
      exact h
    have h3 : v0 ≤ s0 := by
      rw [hv0get, hs0get]
      exact hsort.get_strictMono.monotone (Fin.mk_le_mk.mpr h2)
    have hv0s0 : v0 = s0 := le_antisymm h3 h1
    rw [hv_run, hv0s0]

/-- C3: for every non-empty path and slot count `k ≥ 1`, when some contiguous
run of `k` slot indices is free on every link of the path,
`PathComputer.allocate_path_slots` assigns to every link of the path the same
run, namely the one with the lowest starting index among all such runs
(first-fit over the sorted free slots of the first link). -/
theorem C3_first_fit_continuity (db : SlotDB) (first : String) (rest : List String)
    (k : ℕ) (hk : 1 ≤ k) (hex : ∃ s, runOk db (first :: rest) s k) :
    ∃ s0, runOk db (first :: rest) s0 k ∧
      (∀ t, runOk db (first :: rest) t k → s0 ≤ t) ∧
      allocatePathSlots db (first :: rest) k
        = (first :: rest).map fun lk => (lk, runList s0 k) := by
  have hspec := Nat.find_spec hex
  have hmin : ∀ t, runOk db (first :: rest) t k → Nat.find hex ≤ t :=
    fun t ht => Nat.find_min' hex ht
  refine ⟨Nat.find hex, hspec, hmin, ?_⟩
  have hscan := scanWindows_first_fit hk hspec hmin
  have h0 : Nat.find hex + 0 ∈ getAvailableSlots db first :=
    mem_getAvailableSlots.mpr (hspec first (by simp) 0 (by omega))
  have hne : ¬ (getAvailableSlots db first).isEmpty = true := by
    rw [List.isEmpty_iff]
    intro hnil
    rw [hnil] at h0
    simp at h0
  simp [allocatePathSlots, hne, hscan]

/-- C3 witness: the theorem applied to a two-link path whose common free slots
are `{1, 2, 3}` and a request of 2 slots. -/
theorem C3_first_fit_witness :
    (1 ≤ 2 ∧ (∃ s, runOk (fun _ => ({1, 2, 3} : Finset ℕ)) ["A", "B"] s 2)) ∧
    (∃ s0, runOk (fun _ => ({1, 2, 3} : Finset ℕ)) ["A", "B"] s0 2 ∧
      (∀ t, runOk (fun _ => ({1, 2, 3} : Finset ℕ)) ["A", "B"] t 2 → s0 ≤ t) ∧
      allocatePathSlots (fun _ => ({1, 2, 3} : Finset ℕ)) ["A", "B"] 2
        = ["A", "B"].map fun lk => (lk, runList s0 2)) :=
  ⟨⟨by decide, ⟨1, by decide⟩⟩,
    C3_first_fit_continuity _ "A" ["B"] 2 (by decide) ⟨1, by decide⟩⟩

/-- If the common-run scan of `allocate_path_slots` succeeds, a contiguous run
free on every link of the path exists. -/
lemma scanWindows_some_runOk {db : SlotDB} {first : String} {rest : List String}
    {k : ℕ} {v : List ℕ}
    (h : scanWindows db rest (getAvailableSlots db first) k = some v) :
    ∃ s, runOk db (first :: rest) s k := by
  set avail := getAvailableSlots db first with havail
  simp only [scanWindows] at h
  obtain ⟨i, hirange, hoki, hveq, -⟩ := scanIdx_eq_some (List.sorted_lt_range _) h
  have hik : i + k ≤ avail.length := by
    have := List.mem_range.mp hirange; omega
  have hlenv : v.length = k := by rw [hveq]; exact windowAt_length hik
  rw [windowOk, Bool.and_eq_true] at hoki
  have hv_run : v = runList (v.headD 0) k := by
    have h2 := contiguous_eq_runList (windowAt avail k i) hoki.1
    rw [← hveq, hlenv] at h2
    exact h2
  obtain ⟨v0, hv0⟩ : ∃ v0, v = runList v0 k := ⟨v.headD 0, hv_run⟩
  refine ⟨v0, fun lk hlk j hj => ?_⟩
  have hxmem : v0 + j ∈ windowAt avail k i := by
    rw [← hveq, hv0]
    exact mem_runList.mpr ⟨by omega, by omega⟩
  rcases List.mem_cons.mp hlk with rfl | hlk2
  · exact mem_getAvailableSlots.mp (windowAt_subset hxmem)
  · exact slotsFreeOnLinks_iff.mp hoki.2 lk hlk2 _ hxmem

/-- `find_contiguous_slots` fails exactly when the link has no contiguous run
of the required length among its free slots. -/
lemma findContiguousSlots_eq_none_iff {db : SlotDB} {lk : String} {k : ℕ}
    (hk : 1 ≤ k) :
    findContiguousSlots db lk k = none ↔ ∀ s, ¬ runOk db [lk] s k := by
  constructor
  · intro hnone s hrun
    have hmemf : ∀ j, j < k → s + j ∈ getAvailableSlots db lk := fun j hj =>
      mem_getAvailableSlots.mpr (hrun lk (by simp) j hj)
    have hne : ¬ (getAvailableSlots db lk).isEmpty = true := by
      rw [List.isEmpty_iff]
      intro hnil
      have := hmemf 0 (by omega)
      rw [hnil] at this
      simp at this
    obtain ⟨i0, hi0len, hwi0⟩ :=
      run_is_window (getAvailableSlots db lk) (getAvailableSlots_sorted_lt db lk)
        s k hk hmemf
    rw [findContiguousSlots, if_neg hne] at hnone
    have hall := scanIdx_eq_none.mp hnone i0 (List.mem_range.mpr (by omega))
    rw [hwi0, contiguousRun_runList] at hall
    exact absurd hall (by simp)
  · intro hnone
    cases hfind : findContiguousSlots db lk k with
    | none => rfl
    | some w =>
      exfalso
      rw [findContiguousSlots] at hfind
      by_cases hne : (getAvailableSlots db lk).isEmpty = true
      · rw [if_pos hne] at hfind; exact Option.noConfusion hfind
      · rw [if_neg hne] at hfind
        obtain ⟨i, hirange, hoki, hveq, -⟩ :=
          scanIdx_eq_some (List.sorted_lt_range _) hfind
        have hik : i + k ≤ (getAvailableSlots db lk).length := by
          have := List.mem_range.mp hirange; omega
        have hlenv : w.length = k := by rw [hveq]; exact windowAt_length hik
        have hw_run : w = runList (w.headD 0) k := by
          have h2 := contiguous_eq_runList (windowAt (getAvailableSlots db lk) k i) hoki
          rw [← hveq, hlenv] at h2
          exact h2
        obtain ⟨w0, hw0⟩ : ∃ w0, w = runList w0 k := ⟨w.headD 0, hw_run⟩
        refine hnone w0 fun lk2 hlk2 j hj => ?_
        have hxmem : w0 + j ∈ windowAt (getAvailableSlots db lk) k i := by
          rw [← hveq, hw0]
          exact mem_runList.mpr ⟨by omega, by omega⟩
        rcases List.mem_singleton.mp hlk2 with rfl
        exact mem_getAvailableSlots.mp (windowAt_subset hxmem)

lemma allocPerLinkGo_eq_none_iff {db : SlotDB} {k : ℕ} :
    ∀ {ls : List String},
      allocPerLinkGo db k ls = none ↔ ∃ lk ∈ ls, findContiguousSlots db lk k = none := by
  intro ls
  induction ls with
  | nil => simp [allocPerLinkGo]
  | cons lk ls ih =>
    cases hf : findContiguousSlots db lk k with
    | none => simp [allocPerLinkGo, hf]
    | some w =>
      simp only [allocPerLinkGo, hf]
      cases hg : allocPerLinkGo db k ls with
      | none => simp [hg, hf] at ih ⊢; simpa [hf] using ih
      | some r => simp [hg, hf] at ih ⊢; simpa [hf] using ih

lemma allocatePerLinkSlots_eq_nil_iff {db : SlotDB} {k : ℕ} {first : String}
    {rest : List String} :
    allocatePerLinkSlots db (first :: rest) k = [] ↔
      allocPerLinkGo db k (first :: rest) = none := by
  unfold allocatePerLinkSlots
  cases hg : allocPerLinkGo db k (first :: rest) with
  | none => simp
  | some r =>
    simp only [Option.getD_some]
    constructor
    · intro hr
      exfalso
      rw [allocPerLinkGo] at hg
      cases hf : findContiguousSlots db first k with
      | none => rw [hf] at hg; exact Option.noConfusion hg
      | some w =>
        rw [hf] at hg
        cases hg2 : allocPerLinkGo db k rest with
        | none => rw [hg2] at hg; exact Option.noConfusion hg
        | some r2 =>
          rw [hg2] at hg
          simp at hg
          rw [← hg] at hr
          exact List.cons_ne_nil _ _ hr
    · intro h; exact Option.noConfusion h

/-- C4 (amended): when no contiguous run of the required length is free on
every link of the path simultaneously, `allocate_path_slots` does not reject —
it falls back to `_allocate_per_link_slots` (per-link spectrum conversion,
slot indices may differ across links), and it returns the empty allocation
exactly when some individual link of the path lacks a contiguous run of the
required length. -/
theorem C4_per_link_fallback (db : SlotDB) (first : String) (rest : List String)
    (k : ℕ) (hk : 1 ≤ k) (hnone : ∀ s, ¬ runOk db (first :: rest) s k) :
    allocatePathSlots db (first :: rest) k
      = allocatePerLinkSlots db (first :: rest) k ∧
    (allocatePerLinkSlots db (first :: rest) k = [] ↔
      ∃ lk ∈ first :: rest, ∀ s, ¬ runOk db [lk] s k) := by
  constructor
  · by_cases hne : (getAvailableSlots db first).isEmpty = true
    · have hfind : findContiguousSlots db first k = none := by
        rw [findContiguousSlots, if_pos hne]
      have hgo : allocPerLinkGo db k (first :: rest) = none := by
        rw [allocPerLinkGo, hfind]
      simp [allocatePathSlots, hne, allocatePerLinkSlots, hgo]
    · cases hscan : scanWindows db rest (getAvailableSlots db first) k with
      | none => simp [allocatePathSlots, hne, hscan]
      | some v => exact absurd (scanWindows_some_runOk hscan) (by simpa using hnone)
  · rw [allocatePerLinkSlots_eq_nil_iff, allocPerLinkGo_eq_none_iff]
    constructor
    · rintro ⟨lk, hlk, hf⟩
      exact ⟨lk, hlk, (findContiguousSlots_eq_none_iff hk).mp hf⟩
    · rintro ⟨lk, hlk, hf⟩
      exact ⟨lk, hlk, (findContiguousSlots_eq_none_iff hk).mpr hf⟩

/-- C4 counterexample: with disjoint free sets on the two links of the path
(so no common contiguous run exists), `allocate_path_slots` does NOT reject:
it returns a non-empty plan in which the two links carry different slot
indices (`[0, 1]` on `L1`, `[2, 3]` on `L2`) — per-link spectrum conversion,
which the claim says never happens. -/
theorem C4_conversion_counterexample :
    (∀ s, ¬ runOk exdb4 ["L1", "L2"] s 2) ∧
    allocatePathSlots exdb4 ["L1", "L2"] 2 = [("L1", [0, 1]), ("L2", [2, 3])] ∧
    allocatePathSlots exdb4 ["L1", "L2"] 2 ≠ [] := by
  refine ⟨?_, by decide, by decide⟩
  intro s hs
  have h1 : s ∈ ({0, 1} : Finset ℕ) := by
    have := hs "L1" (by simp) 0 (by omega)
    simpa [exdb4] using this
  have h2 : s ∈ ({2, 3} : Finset ℕ) := by
    have := hs "L2" (by simp) 0 (by omega)
    simpa [exdb4] using this
  simp [Finset.mem_insert, Finset.mem_singleton] at h1 h2
  omega

/-- C4 witness for the amended theorem: the fallback applied to the
counterexample store, where each link does have its own run. -/
theorem C4_fallback_witness :
    (∀ s, ¬ runOk exdb4 ["L1", "L2"] s 2) ∧
    allocatePathSlots exdb4 ["L1", "L2"] 2
      = allocatePerLinkSlots exdb4 ["L1", "L2"] 2 := by
  have hnone : ∀ s, ¬ runOk exdb4 ["L1", "L2"] s 2 := by
    intro s hs
    have h1 : s ∈ ({0, 1} : Finset ℕ) := by
      have := hs "L1" (by simp) 0 (by omega)
      simpa [exdb4] using this
    have h2 : s ∈ ({2, 3} : Finset ℕ) := by
      have := hs "L2" (by simp) 0 (by omega)
      simpa [exdb4] using this
    simp [Finset.mem_insert, Finset.mem_singleton] at h1 h2
    omega
  exact ⟨hnone, (C4_per_link_fallback exdb4 "L1" ["L2"] 2 (by decide) hnone).1⟩

lemma lookupA_eraseA_ne {β : Type} (m : List (String × β)) {k k2 : String}
    (h : k2 ≠ k) : lookupA (eraseA m k) k2 = lookupA m k2 := by
  induction m with
  | nil => rfl
  | cons p m ih =>
    by_cases hp : p.1 = k
    · have hp2 : ¬ p.1 = k2 := by rw [hp]; exact fun h2 => h h2.symm
      rw [eraseA, if_pos hp, lookupA, if_neg hp2]
      exact ih
    · rw [eraseA, if_neg hp, lookupA, lookupA]
      by_cases hq : p.1 = k2
      · rw [if_pos hq, if_pos hq]
      · rw [if_neg hq, if_neg hq]
        exact ih

lemma lookupA_eraseA_self {β : Type} (m : List (String × β)) (k : String) :
    lookupA (eraseA m k) k = none := by
  induction m with
  | nil => rfl
  | cons p m ih =>
    by_cases hp : p.1 = k
    · rw [eraseA, if_pos hp]; exact ih
    · rw [eraseA, if_neg hp, lookupA, if_neg hp]; exact ih

lemma lookupA_insertA_self {β : Type} (m : List (String × β)) (k : String) (v : β) :
    lookupA (insertA m k v) k = some v := by
  rw [insertA, lookupA, if_pos rfl]

lemma lookupA_insertA_ne {β : Type} (m : List (String × β)) {k k2 : String}
    (v : β) (h : k2 ≠ k) : lookupA (insertA m k v) k2 = lookupA m k2 := by
  have h2 : ¬ k = k2 := fun h3 => h h3.symm
  rw [insertA, lookupA, if_neg h2]
  exact lookupA_eraseA_ne m h

/-- C7: `allocate_spectrum_slots` on an existing link first verifies that
every requested slot is free; if any is not, it returns false and leaves the
whole store unchanged (no partial allocation); if all are free it records the
slots under the connection id in the occupied map, removes exactly those
slots from the free set, touches nothing else, and returns true. -/
theorem C7_allocate_slots_atomic (st : DBState) (linkId connId : String)
    (slots : List ℕ) (ls : LinkState)
    (hl : lookupA st.links linkId = some ls) :
    ((¬ ∀ s ∈ slots, s ∈ ls.free) →
      allocateSpectrumSlots st linkId connId slots = (st, false)) ∧
    ((∀ s ∈ slots, s ∈ ls.free) →
      (allocateSpectrumSlots st linkId connId slots).2 = true ∧
      lookupA (allocateSpectrumSlots st linkId connId slots).1.links linkId
        = some (LinkState.mk (ls.free \ slots.toFinset)
            (insertA ls.occupied connId slots)) ∧
      (∀ x, x ∈ ls.free \ slots.toFinset ↔ x ∈ ls.free ∧ x ∉ slots) ∧
      lookupA (insertA ls.occupied connId slots) connId = some slots ∧
      (∀ c, c ≠ connId →
        lookupA (insertA ls.occupied connId slots) c = lookupA ls.occupied c) ∧
      (allocateSpectrumSlots st linkId connId slots).1.interfaces = st.interfaces ∧
      (allocateSpectrumSlots st linkId connId slots).1.records = st.records ∧
      (∀ l2, l2 ≠ linkId →
        lookupA (allocateSpectrumSlots st linkId connId slots).1.links l2
          = lookupA st.links l2)) := by
  have hcond : ((slots.all fun s => decide (s ∈ ls.free)) = true)
      ↔ ∀ s ∈ slots, s ∈ ls.free := by
    simp [List.all_eq_true]
  constructor
  · intro hno
    have hnc : ¬ (slots.all fun s => decide (s ∈ ls.free)) = true :=
      fun h => hno (hcond.mp h)
    simp only [allocateSpectrumSlots, hl]
    rw [if_neg hnc]
  · intro hyes
    have hc : (slots.all fun s => decide (s ∈ ls.free)) = true := hcond.mpr hyes
    simp only [allocateSpectrumSlots, hl]
    rw [if_pos hc]
    refine ⟨rfl, lookupA_insertA_self _ _ _, ?_, lookupA_insertA_self _ _ _,
      fun c hc2 => lookupA_insertA_ne _ _ hc2, rfl, rfl,
      fun l2 hl2 => lookupA_insertA_ne _ _ hl2⟩
    intro x
    simp [Finset.mem_sdiff, List.mem_toFinset]

/-- C7 witness: the theorem applied to `st7`; slot 5 is not free, so the
allocation of `[5]` fails without change, while `[0, 1]` succeeds. -/
theorem C7_allocate_slots_witness :
    ((¬ ∀ s ∈ [5], s ∈ (LinkState.mk {0, 1, 2} ([] : List (String × List ℕ))).free) ∧
      allocateSpectrumSlots st7 "L1" "c1" [5] = (st7, false)) ∧
    ((∀ s ∈ [0, 1], s ∈ (LinkState.mk {0, 1, 2} ([] : List (String × List ℕ))).free) ∧
      (allocateSpectrumSlots st7 "L1" "c1" [0, 1]).2 = true) :=
  ⟨⟨by decide,
    (C7_allocate_slots_atomic st7 "L1" "c1" [5]
      (LinkState.mk {0, 1, 2} []) (by decide)).1 (by decide)⟩,
   ⟨by decide,
    ((C7_allocate_slots_atomic st7 "L1" "c1" [0, 1]
      (LinkState.mk {0, 1, 2} []) (by decide)).2 (by decide)).1⟩⟩

/-- C8 counterexample: after a first teardown completes (record removed,
in-memory entry dropped), a second teardown of the same connection id reports
FAILURE (`False` from both `start_teardown` and `complete_teardown`, hence a
404 from the API), not the success the claim requires — though it indeed
changes nothing. -/
theorem C8_second_teardown_counterexample :
    (completeTeardown ex8cm "c1").2 = true ∧
    lookupA (completeTeardown ex8cm "c1").1.connections "c1" = none ∧
    lookupA (completeTeardown ex8cm "c1").1.db.records "c1" = none ∧
    completeTeardown (completeTeardown ex8cm "c1").1 "c1"
      = ((completeTeardown ex8cm "c1").1, false) ∧
    startTeardown (completeTeardown ex8cm "c1").1 "c1"
      = ((completeTeardown ex8cm "c1").1, false) := by
  decide

/-- C8 (amended): a second teardown of a connection whose teardown has
completed (entry gone from the in-memory index) changes nothing — no slot
free-set, interface state, store record or index entry is modified — but it
reports failure: both `start_teardown` and `complete_teardown` return false
for an unknown connection id. -/
theorem C8_second_teardown_noop (cm : CMState) (connId : String)
    (h : lookupA cm.connections connId = none) :
    completeTeardown cm connId = (cm, false) ∧
    startTeardown cm connId = (cm, false) := by
  constructor
  · simp only [completeTeardown, h]
  · simp only [startTeardown, h]

/-- C8 witness: the amended theorem applied to the state left by the first
teardown of `ex8cm`. -/
theorem C8_second_teardown_witness :
    (lookupA (completeTeardown ex8cm "c1").1.connections "c1" = none) ∧
    completeTeardown (completeTeardown ex8cm "c1").1 "c1"
      = ((completeTeardown ex8cm "c1").1, false) ∧
    startTeardown (completeTeardown ex8cm "c1").1 "c1"
      = ((completeTeardown ex8cm "c1").1, false) :=
  ⟨by decide,
   (C8_second_teardown_noop _ "c1" (by decide)).1,
   (C8_second_teardown_noop _ "c1" (by decide)).2⟩

/-- C1: evaluating `create_connection` at an input where the slot allocation
of the second path segment fails (slots `[0, 1]` are not free on `L2`).  The
call nevertheless returns SUCCESS, keeps the slots it allocated on `L1`,
keeps the store record (now `SETUP_IN_PROGRESS`), and keeps the in-memory
entry — no rollback, no failure, contradicting the claim's required undo
semantics.  (Independently, the source's `json.dumps` call at line 248 can
never run: `json` is not imported in `connection_manager.py`.) -/
theorem C1_create_no_rollback :
    (createConnection ex1cm "c1" ex1req ex1segs).2 = true ∧
    lookupA (createConnection ex1cm "c1" ex1req ex1segs).1.db.links "L1"
      = some (LinkState.mk {2, 3} [("c1", [0, 1])]) ∧
    lookupA (createConnection ex1cm "c1" ex1req ex1segs).1.db.links "L2"
      = some (LinkState.mk {5} []) ∧
    lookupA (createConnection ex1cm "c1" ex1req ex1segs).1.db.records "c1"
      = some "SETUP_IN_PROGRESS" ∧
    (lookupA (createConnection ex1cm "c1" ex1req ex1segs).1.connections "c1").isSome
      = true := by
  decide

/-- C5 counterexample (two scenarios, default thresholds, N = 3):
with `sampA` every sample is individually at least degraded (one of them
critical), yet the code classifies NORMAL — critical samples feed only the
critical counter, so `degraded_samples = 2 < 3`; with `sampB` only 2 of the
3 samples are degraded, yet the code classifies DEGRADED — each doubly
degraded sample adds 2 flags, so `degraded_samples = 4 ≥ 3`, contradicting
"with only N−1 of the last N samples degraded the level stays NORMAL". -/
theorem C5_all_n_counterexample :
    (∀ s ∈ sampA, specSampleDegradedB defaultQoTConfig s = true) ∧
    classifyLevel defaultQoTConfig sampA = DegradationLevel.NORMAL ∧
    specSampleDegradedB defaultQoTConfig (QoTSample.mk (some 30) none) = false ∧
    classifyLevel defaultQoTConfig sampB = DegradationLevel.DEGRADED := by
  refine ⟨?_, ?_, ?_, ?_⟩
  · intro s hs
    simp only [sampA, List.mem_cons, List.not_mem_nil, or_false] at hs
    rcases hs with rfl | rfl | rfl <;>
      norm_num [specSampleDegradedB, defaultQoTConfig]
  · norm_num [classifyLevel, sampA, sampleCritCount, sampleDegrCount, defaultQoTConfig]
  · norm_num [specSampleDegradedB, defaultQoTConfig]
  · norm_num [classifyLevel, sampB, sampleCritCount, sampleDegrCount, defaultQoTConfig]

lemma sampleCritCount_single (cfg : QoTConfig) (s : QoTSample)
    (h : s.osnr = none ∨ s.preFecBer = none) :
    sampleCritCount cfg s = if specSampleCriticalB cfg s then 1 else 0 := by
  obtain ⟨o, b⟩ := s
  rcases h with h | h <;> simp only at h <;> subst h
  · cases b with
    | none => simp [sampleCritCount, specSampleCriticalB]
    | some q =>
      by_cases hq : q > cfg.berThreshold * 10 <;>
        simp [sampleCritCount, specSampleCriticalB, hq]
  · cases o with
    | none => simp [sampleCritCount, specSampleCriticalB]
    | some q =>
      by_cases hq : q < cfg.criticalOsnr <;>
        simp [sampleCritCount, specSampleCriticalB, hq]

lemma sampleDegrCount_single (cfg : QoTConfig) (s : QoTSample)
    (h : s.osnr = none ∨ s.preFecBer = none) :
    sampleDegrCount cfg s = if sampleDegradedOnlyB cfg s then 1 else 0 := by
  obtain ⟨o, b⟩ := s
  rcases h with h | h <;> simp only at h <;> subst h
  · cases b with
    | none => simp [sampleDegrCount, sampleDegradedOnlyB]
    | some q =>
      by_cases hq : q > cfg.berThreshold * 10
      · have h2 : ¬ q ≤ cfg.berThreshold * 10 := not_le.mpr hq
        simp [sampleDegrCount, sampleDegradedOnlyB, hq, h2]
      · by_cases hq2 : q > cfg.berThreshold <;>
          simp [sampleDegrCount, sampleDegradedOnlyB, hq, hq2, not_lt.mp hq]
  · cases o with
    | none => simp [sampleDegrCount, sampleDegradedOnlyB]
    | some q =>
      by_cases hq : q < cfg.criticalOsnr
      · simp [sampleDegrCount, sampleDegradedOnlyB, hq, not_le.mpr hq]
      · by_cases hq2 : q < cfg.osnrThreshold <;>
          simp [sampleDegrCount, sampleDegradedOnlyB, hq, hq2, not_lt.mp hq]

lemma critSum_eq_countP (cfg : QoTConfig) (l : List QoTSample)
    (h : ∀ s ∈ l, s.osnr = none ∨ s.preFecBer = none) :
    (l.map (sampleCritCount cfg)).sum = l.countP (specSampleCriticalB cfg) := by
  induction l with
  | nil => rfl
  | cons a l ih =>
    rw [List.map_cons, List.sum_cons, List.countP_cons,
      sampleCritCount_single cfg a (h a (by simp)),
      ih fun s hs => h s (by simp [hs])]
    omega

lemma degrSum_eq_countP (cfg : QoTConfig) (l : List QoTSample)
    (h : ∀ s ∈ l, s.osnr = none ∨ s.preFecBer = none) :
    (l.map (sampleDegrCount cfg)).sum = l.countP (sampleDegradedOnlyB cfg) := by
  induction l with
  | nil => rfl
  | cons a l ih =>
    rw [List.map_cons, List.sum_cons, List.countP_cons,
      sampleDegrCount_single cfg a (h a (by simp)),
      ih fun s hs => h s (by simp [hs])]
    omega

/-- C5 (amended): the ingestion-time classification is count-based, not
all-of-N-based — each sample contributes one critical or degraded flag per
present metric, CRITICAL fires when the critical flags reach N and DEGRADED
when the degraded-but-not-critical flags reach N.  For windows of exactly N
samples that each carry at most one metric this means: CRITICAL exactly when
all N samples are individually critical; DEGRADED exactly when not all are
critical and all N are degraded-but-not-critical (a mix of critical and
merely-degraded samples yields NORMAL, and critical samples never count as
degraded); NORMAL otherwise; WARNING is never produced. -/
theorem C5_count_based_classification (cfg : QoTConfig) (recent : List QoTSample)
    (hlen : recent.length = cfg.persistency)
    (hone : ∀ s ∈ recent, s.osnr = none ∨ s.preFecBer = none) :
    (classifyLevel cfg recent = DegradationLevel.CRITICAL ↔
      ∀ s ∈ recent, specSampleCriticalB cfg s = true) ∧
    (classifyLevel cfg recent = DegradationLevel.DEGRADED ↔
      (¬ ∀ s ∈ recent, specSampleCriticalB cfg s = true) ∧
      ∀ s ∈ recent, sampleDegradedOnlyB cfg s = true) ∧
    classifyLevel cfg recent ≠ DegradationLevel.WARNING := by
  have e1 : classifyLevel cfg recent =
      (if cfg.persistency ≤ (recent.map (sampleCritCount cfg)).sum then
        DegradationLevel.CRITICAL
      else if cfg.persistency ≤ (recent.map (sampleDegrCount cfg)).sum then
        DegradationLevel.DEGRADED
      else DegradationLevel.NORMAL) := rfl
  rw [e1, critSum_eq_countP cfg recent hone, degrSum_eq_countP cfg recent hone]
  have hc1 : recent.countP (specSampleCriticalB cfg) ≤ recent.length :=
    List.countP_le_length _
  have hc2 : recent.countP (sampleDegradedOnlyB cfg) ≤ recent.length :=
    List.countP_le_length _
  by_cases h1 : cfg.persistency ≤ recent.countP (specSampleCriticalB cfg)
  · have hall : ∀ s ∈ recent, specSampleCriticalB cfg s = true := by
      rw [← List.countP_eq_length]
      omega
    rw [if_pos h1]
    exact ⟨⟨fun _ => hall, fun _ => rfl⟩,
      ⟨fun h => absurd h (by simp), fun h => absurd hall h.1⟩, by simp⟩
  · have hnall : ¬ ∀ s ∈ recent, specSampleCriticalB cfg s = true := by
      intro hall
      rw [← List.countP_eq_length] at hall
      omega
    by_cases h2 : cfg.persistency ≤ recent.countP (sampleDegradedOnlyB cfg)
    · have hall2 : ∀ s ∈ recent, sampleDegradedOnlyB cfg s = true := by
        rw [← List.countP_eq_length]
        omega
      rw [if_neg h1, if_pos h2]
      exact ⟨⟨fun h => absurd h (by simp), fun hall => absurd hall hnall⟩,
        ⟨fun _ => ⟨hnall, hall2⟩, fun _ => rfl⟩, by simp⟩
    · have hnall2 : ¬ ∀ s ∈ recent, sampleDegradedOnlyB cfg s = true := by
        intro hall2
        rw [← List.countP_eq_length] at hall2
        omega
      rw [if_neg h1, if_neg h2]
      exact ⟨⟨fun h => absurd h (by simp), fun hall => absurd hall hnall⟩,
        ⟨fun h => absurd h (by simp), fun h => absurd h.2 hnall2⟩, by simp⟩

/-- C5 witness: the amended theorem applied to three osnr-only samples at
the default thresholds. -/
theorem C5_count_witness :
    (sampA.length = defaultQoTConfig.persistency ∧
      (∀ s ∈ sampA, s.osnr = none ∨ s.preFecBer = none)) ∧
    (classifyLevel defaultQoTConfig sampA = DegradationLevel.CRITICAL ↔
      ∀ s ∈ sampA, specSampleCriticalB defaultQoTConfig s = true) :=
  ⟨⟨by decide, by decide⟩,
   (C5_count_based_classification defaultQoTConfig sampA (by decide) (by decide)).1⟩

lemma runTrigger_cons (cfg : QoTConfig) (st : MonState) (ev : TrigEvent)
    (evs : List TrigEvent) :
    runTrigger cfg st (ev :: evs)
      = ((runTrigger cfg
            (triggerReconfiguration cfg ev.now ev.connExists ev.startOk st).state
            evs).1,
         if (triggerReconfiguration cfg ev.now ev.connExists ev.startOk st).performed
         then ev.now ::
           (runTrigger cfg
             (triggerReconfiguration cfg ev.now ev.connExists ev.startOk st).state
             evs).2
         else (runTrigger cfg
             (triggerReconfiguration cfg ev.now ev.connExists ev.startOk st).state
             evs).2) := rfl

lemma trigger_guard (cfg : QoTConfig) (now : ℕ) (ce so : Bool) (st : MonState)
    (h : 3 ≤ st.reconfigCount ∨ isInCooldown now st = true) :
    triggerReconfiguration cfg now ce so st = TrigResult.mk st [] false := by
  rcases h with h | h
  · simp [triggerReconfiguration, h]
  · by_cases h3 : 3 ≤ st.reconfigCount
    · simp [triggerReconfiguration, h3]
    · simp [triggerReconfiguration, h3, h]

lemma trigger_not_performed {cfg : QoTConfig} {now : ℕ} {ce so : Bool}
    {st : MonState}
    (h : (triggerReconfiguration cfg now ce so st).performed = false) :
    (triggerReconfiguration cfg now ce so st).state = st := by
  unfold triggerReconfiguration at h ⊢
  split_ifs at h ⊢ <;> simp_all

lemma trigger_performed {cfg : QoTConfig} {now : ℕ} {ce so : Bool}
    {st : MonState}
    (h : (triggerReconfiguration cfg now ce so st).performed = true) :
    st.reconfigCount < 3 ∧ isInCooldown now st = false ∧
    (triggerReconfiguration cfg now ce so st).state.reconfigCount
      = st.reconfigCount + 1 ∧
    (triggerReconfiguration cfg now ce so st).state.cooldownUntil
      = some (now + cfg.cooldownSec) := by
  unfold triggerReconfiguration at h ⊢
  split_ifs at h ⊢
  simp_all

lemma runTrigger_chain (cfg : QoTConfig) :
    ∀ (evs : List TrigEvent) (st : MonState),
      List.Chain' (fun a b => a + cfg.cooldownSec ≤ b) (runTrigger cfg st evs).2 ∧
      (∀ c, st.cooldownUntil = some c →
        ∀ a, (runTrigger cfg st evs).2.head? = some a → c ≤ a)
  | [], st => by
    constructor
    · exact List.chain'_nil
    · intro c _ a ha
      simp [runTrigger] at ha
  | ev :: evs, st => by
    rw [runTrigger_cons]
    by_cases hperf :
        (triggerReconfiguration cfg ev.now ev.connExists ev.startOk st).performed
          = true
    · obtain ⟨h3, hcd, hcnt, hcool⟩ := trigger_performed hperf
      have ih := runTrigger_chain cfg evs
        (triggerReconfiguration cfg ev.now ev.connExists ev.startOk st).state
      rw [if_pos hperf]
      constructor
      · rw [List.chain'_cons']
        refine ⟨fun b hb => ih.2 (ev.now + cfg.cooldownSec) hcool b hb, ih.1⟩
      · intro c hc a ha
        rw [List.head?_cons, Option.some.injEq] at ha
        have hnc : ¬ (ev.now < c) := by
          unfold isInCooldown at hcd
          rw [hc] at hcd
          simpa using hcd
        omega
    · have hst := trigger_not_performed (by simpa using hperf)
      have ih := runTrigger_chain cfg evs st
      rw [if_neg hperf, hst]
      exact ih

lemma runTrigger_count (cfg : QoTConfig) :
    ∀ (evs : List TrigEvent) (st : MonState),
      (runTrigger cfg st evs).2.length ≤ 3 - st.reconfigCount
  | [], st => by simp [runTrigger]
  | ev :: evs, st => by
    rw [runTrigger_cons]
    by_cases hperf :
        (triggerReconfiguration cfg ev.now ev.connExists ev.startOk st).performed
          = true
    · obtain ⟨h3, -, hcnt, -⟩ := trigger_performed hperf
      have ih := runTrigger_count cfg evs
        (triggerReconfiguration cfg ev.now ev.connExists ev.startOk st).state
      rw [hcnt] at ih
      rw [if_pos hperf]
      simp only [List.length_cons]
      omega
    · have hst := trigger_not_performed (by simpa using hperf)
      have ih := runTrigger_count cfg evs st
      rw [if_neg hperf, hst]
      exact ih

/-- C6: `_trigger_reconfiguration` does nothing — no state change, no
connection-manager call, no command — whenever `reconfig_count ≥ 3` or the
current time is before `cooldown_until`; consequently, starting from a fresh
monitor state, any sequence of trigger invocations performs at most 3
reconfigurations, and the times of successive performed reconfigurations are
at least `COOLDOWN_SEC` seconds apart. -/
theorem C6_bounded_reconfiguration (cfg : QoTConfig) (now : ℕ)
    (connExists startOk : Bool) (st : MonState)
    (h : 3 ≤ st.reconfigCount ∨ isInCooldown now st = true) :
    triggerReconfiguration cfg now connExists startOk st
      = TrigResult.mk st [] false ∧
    (∀ evs, (runTrigger cfg initMonState evs).2.length ≤ 3 ∧
      List.Chain' (fun a b => a + cfg.cooldownSec ≤ b)
        (runTrigger cfg initMonState evs).2) := by
  refine ⟨trigger_guard cfg now connExists startOk st h, fun evs => ⟨?_, ?_⟩⟩
  · have h2 := runTrigger_count cfg evs initMonState
    simpa [initMonState] using h2
  · exact (runTrigger_chain cfg evs initMonState).1

/-- C6 witness: the theorem applied to a connection that already used its 3
reconfigurations. -/
theorem C6_bounded_witness :
    (3 ≤ exMon6.reconfigCount ∨ isInCooldown 100 exMon6 = true) ∧
    (triggerReconfiguration defaultQoTConfig 100 true true exMon6
        = TrigResult.mk exMon6 [] false ∧
      (∀ evs, (runTrigger defaultQoTConfig initMonState evs).2.length ≤ 3 ∧
        List.Chain' (fun a b => a + defaultQoTConfig.cooldownSec ≤ b)
          (runTrigger defaultQoTConfig initMonState evs).2)) :=
  ⟨Or.inl (by decide),
   C6_bounded_reconfiguration defaultQoTConfig 100 true true exMon6
     (Or.inl (by decide))⟩

/-- C10: telemetry ingestion for a connection that is unknown to the
connection manager or whose status is not `ACTIVE` makes no
connection-manager call at all — it neither marks the connection degraded
nor starts a reconfiguration — so the connection's FSM status is left
unchanged. -/
theorem C10_non_active_untouched (cfg : QoTConfig) (now : ℕ)
    (connStatus : Option ConnectionStatus) (startOk : Bool) (st : MonState)
    (sample : QoTSample) (h : connStatus ≠ some ACTIVE) :
    (handleTelemetry cfg now connStatus startOk st sample).calls = [] ∧
    applyCMCalls (handleTelemetry cfg now connStatus startOk st sample).calls
      connStatus = connStatus := by
  have hcalls : (handleTelemetry cfg now connStatus startOk st sample).calls = [] := by
    unfold handleTelemetry checkDegradation
    simp only [if_neg h]
    split_ifs <;> rfl
  exact ⟨hcalls, by rw [hcalls]; rfl⟩

/-- C10 witness: the theorem applied to a connection in `DEGRADED` status
receiving a degraded sample. -/
theorem C10_non_active_witness :
    ((some DEGRADED : Option ConnectionStatus) ≠ some ACTIVE) ∧
    ((handleTelemetry defaultQoTConfig 50 (some DEGRADED) true exMon10
        (QoTSample.mk (some 17) none)).calls = [] ∧
      applyCMCalls
        (handleTelemetry defaultQoTConfig 50 (some DEGRADED) true exMon10
          (QoTSample.mk (some 17) none)).calls (some DEGRADED) = some DEGRADED) :=
  ⟨by decide,
   C10_non_active_untouched defaultQoTConfig 50 (some DEGRADED) true exMon10
     (QoTSample.mk (some 17) none) (by decide)⟩

/-- C9 counterexample: with no registered agent for pop `A`, router `r1`,
`dispatch_reconfig_command` does NOT fall back to the synthetic id `"A-r1"`:
no command is sent at all (the sent list is empty), and the result map
records failure under `"A_r1"` (underscore, not the claimed synthetic key). -/
theorem C9_synthetic_id_counterexample :
    dispatchReconfigCommand 100 (fun _ => true) [] "c1" [EndpointCfg.mk "A" "r1"]
      = ([("A_r1", false)], []) ∧
    getAgent [] "A" "r1" = none := by
  exact ⟨rfl, rfl⟩

/-- C9 (amended): command dispatch resolves the target through `get_agent`
(the first REGISTERED agent for the pop/router, regardless of liveness) and
sends the command keyed by that agent's id only when the agent is also online
(heartbeat within 60 s); otherwise no command is sent — there is no synthetic
`"{pop}-{router}"` fallback — and the result map records failure under
`"{pop}_{router}"`.  Every command ever sent targets a registered, online
agent. -/
lemma dispatch_snd_none {now : ℕ} {sendOk : String → Bool}
    {agents : List AgentInfo} {connId : String} {c : EndpointCfg}
    {cs : List EndpointCfg} (h : getAgent agents c.popId c.nodeId = none) :
    (dispatchReconfigCommand now sendOk agents connId (c :: cs)).2
      = (dispatchReconfigCommand now sendOk agents connId cs).2 := by
  rw [dispatchReconfigCommand, h]

lemma dispatch_snd_online {now : ℕ} {sendOk : String → Bool}
    {agents : List AgentInfo} {connId : String} {c : EndpointCfg}
    {cs : List EndpointCfg} {a : AgentInfo}
    (h : getAgent agents c.popId c.nodeId = some a)
    (hon : isOnline now a = true) :
    (dispatchReconfigCommand now sendOk agents connId (c :: cs)).2
      = SentCommand.mk a.agentId connId ::
        (dispatchReconfigCommand now sendOk agents connId cs).2 := by
  rw [dispatchReconfigCommand, h]
  simp only [hon, if_true]

lemma dispatch_snd_offline {now : ℕ} {sendOk : String → Bool}
    {agents : List AgentInfo} {connId : String} {c : EndpointCfg}
    {cs : List EndpointCfg} {a : AgentInfo}
    (h : getAgent agents c.popId c.nodeId = some a)
    (hon : isOnline now a = false) :
    (dispatchReconfigCommand now sendOk agents connId (c :: cs)).2
      = (dispatchReconfigCommand now sendOk agents connId cs).2 := by
  rw [dispatchReconfigCommand, h]
  simp only [hon, Bool.false_eq_true, if_false]

lemma dispatch_cons_none {now : ℕ} {sendOk : String → Bool}
    {agents : List AgentInfo} {connId : String} (c : EndpointCfg)
    (cs : List EndpointCfg) (h : getAgent agents c.popId c.nodeId = none) :
    dispatchReconfigCommand now sendOk agents connId (c :: cs)
      = ((c.popId ++ "_" ++ c.nodeId, false)
            :: (dispatchReconfigCommand now sendOk agents connId cs).1,
         (dispatchReconfigCommand now sendOk agents connId cs).2) := by
  rw [dispatchReconfigCommand, h]

lemma dispatch_cons_online {now : ℕ} {sendOk : String → Bool}
    {agents : List AgentInfo} {connId : String} (c : EndpointCfg)
    (cs : List EndpointCfg) {a : AgentInfo}
    (h : getAgent agents c.popId c.nodeId = some a)
    (hon : isOnline now a = true) :
    dispatchReconfigCommand now sendOk agents connId (c :: cs)
      = ((a.agentId, sendOk a.agentId)
            :: (dispatchReconfigCommand now sendOk agents connId cs).1,
         SentCommand.mk a.agentId connId
            :: (dispatchReconfigCommand now sendOk agents connId cs).2) := by
  rw [dispatchReconfigCommand, h]
  simp only [hon, if_true]

lemma dispatch_cons_offline {now : ℕ} {sendOk : String → Bool}
    {agents : List AgentInfo} {connId : String} (c : EndpointCfg)
    (cs : List EndpointCfg) {a : AgentInfo}
    (h : getAgent agents c.popId c.nodeId = some a)
    (hon : isOnline now a = false) :
    dispatchReconfigCommand now sendOk agents connId (c :: cs)
      = ((c.popId ++ "_" ++ c.nodeId, false)
            :: (dispatchReconfigCommand now sendOk agents connId cs).1,
         (dispatchReconfigCommand now sendOk agents connId cs).2) := by
  rw [dispatchReconfigCommand, h]
  simp only [hon, Bool.false_eq_true, if_false]

theorem C9_dispatch_requires_online_agent (now : ℕ) (sendOk : String → Bool)
    (agents : List AgentInfo) (connId : String) :
    (∀ configs cmd,
      cmd ∈ (dispatchReconfigCommand now sendOk agents connId configs).2 →
      ∃ a, a ∈ agents ∧ cmd.targetAgent = a.agentId ∧ isOnline now a = true) ∧
    (∀ c a, getAgent agents c.popId c.nodeId = some a → isOnline now a = true →
      dispatchReconfigCommand now sendOk agents connId [c]
        = ([(a.agentId, sendOk a.agentId)], [SentCommand.mk a.agentId connId])) ∧
    (∀ c, (∀ a, getAgent agents c.popId c.nodeId = some a →
        isOnline now a = false) →
      dispatchReconfigCommand now sendOk agents connId [c]
        = ([(c.popId ++ "_" ++ c.nodeId, false)], [])) ∧
    (∀ c cs,
      (dispatchReconfigCommand now sendOk agents connId (c :: cs)).1
        = (dispatchReconfigCommand now sendOk agents connId [c]).1
          ++ (dispatchReconfigCommand now sendOk agents connId cs).1 ∧
      (dispatchReconfigCommand now sendOk agents connId (c :: cs)).2
        = (dispatchReconfigCommand now sendOk agents connId [c]).2
          ++ (dispatchReconfigCommand now sendOk agents connId cs).2) := by
  refine ⟨?_, ?_, ?_, ?_⟩
  · intro configs
    induction configs with
    | nil => intro cmd hc; simp [dispatchReconfigCommand] at hc
    | cons c cs ih =>
      intro cmd hc
      cases hga : getAgent agents c.popId c.nodeId with
      | none =>
        rw [dispatch_snd_none hga] at hc
        exact ih cmd hc
      | some a =>
        cases hon : isOnline now a with
        | true =>
          rw [dispatch_snd_online hga hon] at hc
          rcases List.mem_cons.mp hc with rfl | hc2
          · exact ⟨a, List.mem_of_find?_eq_some hga, rfl, hon⟩
          · exact ih cmd hc2
        | false =>
          rw [dispatch_snd_offline hga hon] at hc
          exact ih cmd hc
  · intro c a hga hon
    rw [dispatch_cons_online c [] hga hon]
    rfl
  · intro c hno
    cases hga : getAgent agents c.popId c.nodeId with
    | none => rw [dispatch_cons_none c [] hga]; rfl
    | some a => rw [dispatch_cons_offline c [] hga (hno a hga)]; rfl
  · intro c cs
    cases hga : getAgent agents c.popId c.nodeId with
    | none =>
      rw [dispatch_cons_none c cs hga, dispatch_cons_none c [] hga]
      exact ⟨rfl, rfl⟩
    | some a =>
      cases hon : isOnline now a with
      | true =>
        rw [dispatch_cons_online c cs hga hon, dispatch_cons_online c [] hga hon]
        exact ⟨rfl, rfl⟩
      | false =>
        rw [dispatch_cons_offline c cs hga hon, dispatch_cons_offline c [] hga hon]
        exact ⟨rfl, rfl⟩

/-- C9 witness: the amended theorem applied to a registered online agent and
to an unregistered pop/router. -/
theorem C9_dispatch_witness :
    (getAgent exAgents "A" "r1" = some (AgentInfo.mk "agent-A-r1" "A" "r1" (some 70)) ∧
      isOnline 100 (AgentInfo.mk "agent-A-r1" "A" "r1" (some 70)) = true ∧
      dispatchReconfigCommand 100 (fun _ => true) exAgents "c1"
          [EndpointCfg.mk "A" "r1"]
        = ([("agent-A-r1", true)], [SentCommand.mk "agent-A-r1" "c1"])) ∧
    ((∀ a, getAgent exAgents "B" "r9" = some a → isOnline 100 a = false) ∧
      dispatchReconfigCommand 100 (fun _ => true) exAgents "c1"
          [EndpointCfg.mk "B" "r9"]
        = ([("B_r9", false)], [])) :=
  ⟨⟨by decide, by decide,
    (C9_dispatch_requires_online_agent 100 (fun _ => true) exAgents "c1").2.1
      (EndpointCfg.mk "A" "r1") (AgentInfo.mk "agent-A-r1" "A" "r1" (some 70))
      (by decide) (by decide)⟩,
   ⟨fun a ha => by simp [getAgent, exAgents] at ha,
    (C9_dispatch_requires_online_agent 100 (fun _ => true) exAgents "c1").2.2.1
      (EndpointCfg.mk "B" "r9")
      (fun a ha => by simp [getAgent, exAgents] at ha)⟩⟩

end IPoWDM
